import Mathlib

/-!
The tool `historical_events`: its handler and its model client

A shallow embedding of `src/historical_events/main.go`: the handler
`historicalEventsHandler` and the client `queryGemma`, together with the parts of
the Go standard library they call (`time.Parse` for the layout `2006-01-02`,
`Time.Year`, `Time.Format` for the layout `January 2`, `strings.TrimSpace`,
`strings.Contains`, the `%d` verb of `fmt`, `json.Unmarshal` into
`[]struct{GeneratedText string}`).

Conventions.
* A Go `string` is a Lean `String`; the library functions work on its list of
  characters.  The texts handled here are compared with ASCII patterns only, so
  reading them character by character or byte by byte gives the same answers.
* A Go `error` is its message text. The text of the errors of `encoding/json`
  is not spelled out: it is a function of the decoded data that the world supplies.
* The outbound HTTP call is a function of the request, supplied by the world the
  program runs in; every run records the list of requests it sent.
-/

namespace HistoricalEvents

deriving instance DecidableEq for Except

/-! ## Package `time` -/

namespace time

/-- Errors of `time.Parse` (the handler only tests for their presence). -/
inductive ParseError where
  | bad
  | monthOutOfRange
  | extraText
  | dayOutOfRange
deriving DecidableEq, Repr

/-- A `time.Time` holding a calendar date at midnight UTC, as built by
`Date(year, Month(month), day, 0, 0, 0, 0, UTC)` from a month in `1..12` and a day
that exists in that month: the civil date it was built from. -/
structure Time where
  year : Int
  month : Nat
  day : Nat
deriving DecidableEq, Repr

/-- Go: `isDigit(s, i)` reports whether `s[i]` is in range and is a decimal digit. -/
def isDigit (s : List Char) (i : Nat) : Bool :=
  match s.get? i with
  | none => false
  | some c => decide (48 ≤ c.toNat) && decide (c.toNat ≤ 57)

/-- Value of the byte `c - '0'`. -/
def digitVal (c : Char) : Nat := c.toNat - 48

/-- Go: `getnum(s, fixed)` parses `s[0:1]` or `s[0:2]` (fixed forces `s[0:2]`) as a
decimal integer and returns it with the remainder of the string. -/
def getnum (s : List Char) (fixed : Bool) : Except ParseError (Nat × List Char) :=
  if !isDigit s 0 then .error .bad
  else if !isDigit s 1 then
    if fixed then .error .bad
    else .ok (digitVal (s.getD 0 '0'), s.drop 1)
  else .ok (digitVal (s.getD 0 '0') * 10 + digitVal (s.getD 1 '0'), s.drop 2)

/-- Go: `leadingInt(s)` consumes the leading `[0-9]*` of `s`, failing on overflow of
an unsigned 64-bit accumulator past `1<<63`. Returns the value and the rest. -/
def leadingInt : List Char → Nat → Option (Nat × List Char)
  | [], x => some (x, [])
  | c :: rest, x =>
    if decide (c.toNat < 48) || decide (57 < c.toNat) then some (x, c :: rest)
    else if decide (x > 2 ^ 63 / 10) then none
    else
      let x1 := x * 10 + (c.toNat - 48)
      if decide (x1 > 2 ^ 63) then none else leadingInt rest x1

/-- Go: `atoi(s)`: optional sign, then digits only. -/
def atoi (s : List Char) : Except ParseError Int :=
  let neg := decide (s.head? = some '-')
  let body := if decide (s.head? = some '-') || decide (s.head? = some '+') then s.drop 1 else s
  match leadingInt body 0 with
  | none => .error .bad
  | some (q, rem) =>
    if rem.length > 0 then .error .bad
    else if neg then .ok (-(q : Int)) else .ok (q : Int)

/-- Go: `skip(value, prefix)` removes the literal layout text `prefix` from the
front of `value`. The layout `2006-01-02` has no space in its literal text, so the
branch of `skip` for a space in the prefix is left out. -/
def skip : List Char → List Char → Except ParseError (List Char)
  | value, [] => .ok value
  | [], _ :: _ => .error .bad
  | v :: value, p :: pre => if v ≠ p then .error .bad else skip value pre

/-- Go: `isLeap(year)`. -/
def isLeap (year : Int) : Bool :=
  decide (year % 4 = 0) && (decide (year % 100 ≠ 0) || decide (year % 400 = 0))

/-- Go: the table `daysBefore`: days in a non-leap year before month `m+1`. -/
def daysBefore : List Nat :=
  [0, 31, 31 + 28, 31 + 28 + 31, 31 + 28 + 31 + 30, 31 + 28 + 31 + 30 + 31,
   31 + 28 + 31 + 30 + 31 + 30, 31 + 28 + 31 + 30 + 31 + 30 + 31,
   31 + 28 + 31 + 30 + 31 + 30 + 31 + 31, 31 + 28 + 31 + 30 + 31 + 30 + 31 + 31 + 30,
   31 + 28 + 31 + 30 + 31 + 30 + 31 + 31 + 30 + 31,
   31 + 28 + 31 + 30 + 31 + 30 + 31 + 31 + 30 + 31 + 30,
   31 + 28 + 31 + 30 + 31 + 30 + 31 + 31 + 30 + 31 + 30 + 31]

/-- Go: `daysIn(m, year)`, for a month in `1..12`. -/
def daysIn (m : Nat) (year : Int) : Nat :=
  if m = 2 ∧ isLeap year = true then 29
  else daysBefore.getD m 0 - daysBefore.getD (m - 1) 0

/-- Go: `time.Parse("2006-01-02", value)`. The layout splits into the chunks
`stdLongYear`, `"-"` `stdZeroMonth`, `"-"` `stdZeroDay` and the empty rest; the
body below is the parse loop run over these chunks, followed by the validation
of the day of the month and the construction of the date. -/
def Parse (value : String) : Except ParseError Time :=
  let value := value.data
  -- stdLongYear
  if value.length < 4 || !isDigit value 0 then .error .bad
  else
    match atoi (value.take 4) with
    | .error e => .error e
    | .ok year =>
      -- "-" stdZeroMonth
      match skip (value.drop 4) ['-'] with
      | .error e => .error e
      | .ok value =>
        match getnum value true with
        | .error e => .error e
        | .ok (month, value) =>
          if month ≤ 0 ∨ 12 < month then .error .monthOutOfRange
          else
            -- "-" stdZeroDay
            match skip value ['-'] with
            | .error e => .error e
            | .ok value =>
              match getnum value true with
              | .error e => .error e
              | .ok (day, value) =>
                -- end of layout
                if value.length ≠ 0 then .error .extraText
                else if day < 1 ∨ day > daysIn month year then .error .dayOutOfRange
                else .ok { year := year, month := month, day := day }

/-- Go: `t.Year()`. -/
def Time.Year (t : Time) : Int := t.year

/-- Go: the table `longMonthNames`. -/
def longMonthNames : List String :=
  ["January", "February", "March", "April", "May", "June", "July", "August",
   "September", "October", "November", "December"]

/-- Go: `Month.String()` for a month in `1..12`. -/
def monthString (m : Nat) : String := longMonthNames.getD (m - 1) ""

end time

/-! ## Package `strconv` / the `%d` verb -/

namespace strconv

/-- Go: the digit loop of `formatBits` for base 10: the decimal digits of `u`, most
significant first, put in front of `acc`. The first argument bounds the number of
rounds; `u + 1` rounds always suffice. -/
def formatBits : Nat → Nat → List Char → List Char
  | 0, _, acc => acc
  | fuel + 1, u, acc =>
    if u < 10 then Char.ofNat (48 + u) :: acc
    else formatBits fuel (u / 10) (Char.ofNat (48 + u % 10) :: acc)

/-- Go: `strconv.Itoa(i)`, which is also what `%d` prints for an `int`. -/
def Itoa (i : Int) : String :=
  if i < 0 then ⟨'-' :: formatBits (i.natAbs + 1) i.natAbs []⟩
  else ⟨formatBits (i.natAbs + 1) i.natAbs []⟩

end strconv

namespace time

/-- Go: `t.Format("January 2")`: the layout splits into `stdLongMonth`, the literal
space and `stdDay`; the month is written by `Month.String()` and the day by
`appendInt(b, day, 0)`, that is in decimal without padding. -/
def Time.Format_January_2 (t : Time) : String :=
  monthString t.month ++ " " ++ strconv.Itoa (t.day : Int)

end time

/-! ## Package `strings` -/

namespace strings

/-- Go: `unicode.IsSpace(r)`: the Latin-1 white space characters and the code
points of the `White_Space` table above Latin-1. -/
def isSpace (c : Char) : Bool :=
  let r := c.toNat
  decide (r = 0x09) || decide (r = 0x0A) || decide (r = 0x0B) || decide (r = 0x0C) ||
  decide (r = 0x0D) || decide (r = 0x20) || decide (r = 0x85) || decide (r = 0xA0) ||
  decide (r = 0x1680) || (decide (0x2000 ≤ r) && decide (r ≤ 0x200A)) ||
  decide (r = 0x2028) || decide (r = 0x2029) || decide (r = 0x202F) ||
  decide (r = 0x205F) || decide (r = 0x3000)

/-- The characters of `s` without its leading and trailing white space. -/
def trimSpaceList (s : List Char) : List Char :=
  ((s.dropWhile isSpace).reverse.dropWhile isSpace).reverse

/-- Go: `strings.TrimSpace(s)`. -/
def TrimSpace (s : String) : String := ⟨trimSpaceList s.data⟩

/-- Go: `strings.Index(s, substr)`: the position of the first occurrence of `substr`
in `s`; `none` stands for Go's `-1`. -/
def indexList : List Char → List Char → Option Nat
  | [], substr => if substr = [] then some 0 else none
  | c :: cs, substr =>
    if substr.isPrefixOf (c :: cs) then some 0
    else (indexList cs substr).map (· + 1)

/-- Go: `strings.Contains(s, substr)`, that is `Index(s, substr) >= 0`. -/
def Contains (s substr : String) : Bool := (indexList s.data substr.data).isSome

end strings

/-! ## Package `encoding/json` -/

namespace json

/-- A JSON value. A number keeps its literal text. -/
inductive Value where
  | null
  | bool (b : Bool)
  | number (lit : String)
  | str (s : String)
  | arr (items : List Value)
  | obj (fields : List (String × Value))

/-- The lexical elements of a JSON text. A string carries the raw characters
between its quotes, a number its literal. -/
inductive Token where
  | lbrace | rbrace | lbrack | rbrack | comma | colon
  | litTrue | litFalse | litNull
  | str (raw : List Char)
  | num (lit : List Char)
deriving DecidableEq, Repr

/-- Go: the scanner states inside a number literal (`stateNeg`, `state0`, `state1`,
`stateDot`, `stateDot0`, `stateE`, `stateESign`, `stateE0`). -/
inductive NumState where
  | neg | zero | int | dot | dot0 | e | eSign | e0
deriving DecidableEq, Repr

/-- The scanner states at the level of characters. The accumulators hold the
characters read so far, last first. -/
inductive LexState where
  | between
  | inString (acc : List Char)
  | inStringEsc (acc : List Char)
  | inStringEscU (acc : List Char) (left : Nat)
  | word (rest : List Char) (tok : Token)
  | number (st : NumState) (acc : List Char)

/-- Go: `isSpace(c)` of the scanner. -/
def isSpace (c : Char) : Bool :=
  decide (c = ' ') || decide (c = '\t') || decide (c = '\r') || decide (c = '\n')

def isDigit (c : Char) : Bool := decide (48 ≤ c.toNat) && decide (c.toNat ≤ 57)

def isHex (c : Char) : Bool :=
  isDigit c || (decide (97 ≤ c.toNat) && decide (c.toNat ≤ 102)) ||
  (decide (65 ≤ c.toNat) && decide (c.toNat ≤ 70))

/-- Go: one step of the scanner inside a number; `none` when `c` does not continue
the literal from this state. -/
def numStep (st : NumState) (c : Char) : Option NumState :=
  match st with
  | .neg => if c = '0' then some .zero else if isDigit c then some .int else none
  | .int => if isDigit c then some .int
            else if c = '.' then some .dot
            else if c = 'e' ∨ c = 'E' then some .e else none
  | .zero => if c = '.' then some .dot
             else if c = 'e' ∨ c = 'E' then some .e else none
  | .dot => if isDigit c then some .dot0 else none
  | .dot0 => if isDigit c then some .dot0
             else if c = 'e' ∨ c = 'E' then some .e else none
  | .e => if c = '+' ∨ c = '-' then some .eSign
          else if isDigit c then some .e0 else none
  | .eSign => if isDigit c then some .e0 else none
  | .e0 => if isDigit c then some .e0 else none

/-- The number states in which the literal may end. -/
def numFinal (st : NumState) : Bool :=
  match st with
  | .zero | .int | .dot0 | .e0 => true
  | _ => false

/-- The character `c` read between two elements: white space, a one-character
element, or the start of a longer one. Gives the next state and the element
completed by `c`, if any. -/
def startToken (c : Char) : Option (LexState × Option Token) :=
  if isSpace c then some (.between, none)
  else if c = '{' then some (.between, some .lbrace)
  else if c = '}' then some (.between, some .rbrace)
  else if c = '[' then some (.between, some .lbrack)
  else if c = ']' then some (.between, some .rbrack)
  else if c = ',' then some (.between, some .comma)
  else if c = ':' then some (.between, some .colon)
  else if c = '"' then some (.inString [], none)
  else if c = '-' then some (.number .neg [c], none)
  else if c = '0' then some (.number .zero [c], none)
  else if isDigit c then some (.number .int [c], none)
  else if c = 't' then some (.word ['r', 'u', 'e'] .litTrue, none)
  else if c = 'f' then some (.word ['a', 'l', 's', 'e'] .litFalse, none)
  else if c = 'n' then some (.word ['u', 'l', 'l'] .litNull, none)
  else none

/-- The scanner at the level of characters: splits a JSON text into its elements
(`toks` holds the elements found so far, last first); `none` on a character that
the scanner of `encoding/json` rejects inside or at the start of an element. -/
def lex : LexState → List Char → List Token → Option (List Token)
  | .between, [], toks => some toks.reverse
  | .number st acc, [], toks =>
    if numFinal st then some ((Token.num acc.reverse :: toks).reverse) else none
  | _, [], _ => none
  | .between, c :: cs, toks =>
    match startToken c with
    | none => none
    | some (st, none) => lex st cs toks
    | some (st, some t) => lex st cs (t :: toks)
  | .inString acc, c :: cs, toks =>
    if c = '"' then lex .between cs (Token.str acc.reverse :: toks)
    else if c = '\\' then lex (.inStringEsc (c :: acc)) cs toks
    else if c.toNat < 0x20 then none
    else lex (.inString (c :: acc)) cs toks
  | .inStringEsc acc, c :: cs, toks =>
    if c = 'b' ∨ c = 'f' ∨ c = 'n' ∨ c = 'r' ∨ c = 't' ∨ c = '\\' ∨ c = '/' ∨ c = '"' then
      lex (.inString (c :: acc)) cs toks
    else if c = 'u' then lex (.inStringEscU (c :: acc) 4) cs toks
    else none
  | .inStringEscU acc left, c :: cs, toks =>
    if isHex c then
      if left ≤ 1 then lex (.inString (c :: acc)) cs toks
      else lex (.inStringEscU (c :: acc) (left - 1)) cs toks
    else none
  | .word rest tok, c :: cs, toks =>
    match rest with
    | [] => none
    | [r] => if c = r then lex .between cs (tok :: toks) else none
    | r :: rest1 => if c = r then lex (.word rest1 tok) cs toks else none
  | .number st acc, c :: cs, toks =>
    match numStep st c with
    | some st1 => lex (.number st1 (c :: acc)) cs toks
    | none =>
      if numFinal st then
        match startToken c with
        | none => none
        | some (st1, none) => lex st1 cs (Token.num acc.reverse :: toks)
        | some (st1, some t) => lex st1 cs (t :: Token.num acc.reverse :: toks)
      else none

/-- Value of a hexadecimal digit. -/
def hexVal (c : Char) : Nat :=
  if isDigit c then c.toNat - 48
  else if decide (97 ≤ c.toNat) && decide (c.toNat ≤ 102) then c.toNat - 97 + 10
  else c.toNat - 65 + 10

/-- Go: `utf16.DecodeRune(r1, r2)`: the code point of a surrogate pair, or U+FFFD. -/
def decodeSurrogates (r1 r2 : Nat) : Nat :=
  if 0xD800 ≤ r1 ∧ r1 < 0xDC00 ∧ 0xDC00 ≤ r2 ∧ r2 < 0xE000 then
    (r1 - 0xD800) * 1024 + (r2 - 0xDC00) + 0x10000
  else 0xFFFD

/-- Go: `utf16.IsSurrogate(r)`. -/
def isSurrogate (r : Nat) : Bool := decide (0xD800 ≤ r) && decide (r < 0xE000)

/-- The character written by a one-letter escape. -/
def escapeChar (c : Char) : Char :=
  if c = 'b' then Char.ofNat 8
  else if c = 'f' then Char.ofNat 12
  else if c = 'n' then '\n'
  else if c = 'r' then '\r'
  else if c = 't' then '\t'
  else c

/-- Where `unquote` stands inside a string literal: in plain text, after a
backslash, inside the four digits of a `\u` (with the surrogate read just before,
if any), after a `\uXXXX` that named a surrogate, and after the backslash that
follows such a surrogate. -/
inductive QuoteState where
  | plain
  | esc
  | hex (pending : Option Nat) (v : Nat) (left : Nat)
  | high (rr : Nat)
  | highEsc (rr : Nat)

/-- Go: `unquote`, read one character at a time: the text denoted by the raw
characters of a string literal that the scanner has accepted. A `\uXXXX` naming a
surrogate is joined with a directly following `\uXXXX` when the two form a valid
pair and is U+FFFD otherwise. -/
def unquoteFrom : QuoteState → List Char → List Char
  | .high _, [] => [Char.ofNat 0xFFFD]
  | _, [] => []
  | .plain, c :: cs => if c = '\\' then unquoteFrom .esc cs else c :: unquoteFrom .plain cs
  | .esc, c :: cs =>
    if c = 'u' then unquoteFrom (.hex none 0 4) cs else escapeChar c :: unquoteFrom .plain cs
  | .hex pending v left, c :: cs =>
    if left ≤ 1 then
      match pending with
      | none =>
        if isSurrogate (v * 16 + hexVal c) then unquoteFrom (.high (v * 16 + hexVal c)) cs
        else Char.ofNat (v * 16 + hexVal c) :: unquoteFrom .plain cs
      | some rr =>
        if decodeSurrogates rr (v * 16 + hexVal c) ≠ 0xFFFD then
          Char.ofNat (decodeSurrogates rr (v * 16 + hexVal c)) :: unquoteFrom .plain cs
        else if isSurrogate (v * 16 + hexVal c) then
          Char.ofNat 0xFFFD :: unquoteFrom (.high (v * 16 + hexVal c)) cs
        else Char.ofNat 0xFFFD :: Char.ofNat (v * 16 + hexVal c) :: unquoteFrom .plain cs
    else unquoteFrom (.hex pending (v * 16 + hexVal c) (left - 1)) cs
  | .high rr, c :: cs =>
    if c = '\\' then unquoteFrom (.highEsc rr) cs
    else Char.ofNat 0xFFFD :: c :: unquoteFrom .plain cs
  | .highEsc rr, c :: cs =>
    if c = 'u' then unquoteFrom (.hex (some rr) 0 4) cs
    else Char.ofNat 0xFFFD :: escapeChar c :: unquoteFrom .plain cs

/-- Go: `unquote` on the raw characters of an accepted string literal. -/
def unquote (raw : List Char) : String := ⟨unquoteFrom .plain raw⟩

/-- Go: the entries of the scanner's `parseState` stack (`parseObjectKey`,
`parseObjectValue`, `parseArrayValue`), each with the part of its object or array
read so far, last first, and for an object the key being read. -/
inductive Frame where
  | objectKey (fields : List (String × Value)) (key : String)
  | objectValue (fields : List (String × Value)) (key : String)
  | arrayValue (items : List Value)

/-- Go: the scanner's step functions between elements (`stateBeginValue`,
`stateBeginValueOrEmpty`, `stateBeginStringOrEmpty`, `stateBeginString`,
`stateEndValue`, `stateEndTop`). -/
inductive Step where
  | beginValue
  | beginValueOrEmpty
  | beginStringOrEmpty
  | beginString
  | endValue
  | endTop (v : Value)

/-- Go: `maxNestingDepth`. -/
def maxNestingDepth : Nat := 10000

/-- A value has been read completely: hand it to the enclosing array or object,
or finish at top level. -/
def complete (v : Value) (stack : List Frame) : Option (Step × List Frame) :=
  match stack with
  | [] => some (.endTop v, [])
  | .arrayValue items :: rest => some (.endValue, .arrayValue (v :: items) :: rest)
  | .objectValue fields key :: rest =>
    some (.endValue, .objectValue ((key, v) :: fields) key :: rest)
  | .objectKey _ _ :: _ => none

/-- Go: `stateBeginValue` on the next element. -/
def beginValue (stack : List Frame) (t : Token) : Option (Step × List Frame) :=
  match t with
  | .lbrace =>
    if stack.length + 1 ≤ maxNestingDepth then
      some (.beginStringOrEmpty, .objectKey [] "" :: stack)
    else none
  | .lbrack =>
    if stack.length + 1 ≤ maxNestingDepth then
      some (.beginValueOrEmpty, .arrayValue [] :: stack)
    else none
  | .str raw => complete (.str (unquote raw)) stack
  | .num lit => complete (.number ⟨lit⟩) stack
  | .litTrue => complete (.bool true) stack
  | .litFalse => complete (.bool false) stack
  | .litNull => complete .null stack
  | _ => none

/-- Go: `stateBeginString` on the next element: an object key. -/
def beginString (stack : List Frame) (t : Token) : Option (Step × List Frame) :=
  match t, stack with
  | .str raw, .objectKey fields _ :: rest =>
    some (.endValue, .objectKey fields (unquote raw) :: rest)
  | _, _ => none

/-- One step of the scanner on the next element. -/
def step (st : Step) (stack : List Frame) (t : Token) : Option (Step × List Frame) :=
  match st with
  | .beginValue => beginValue stack t
  | .beginValueOrEmpty =>
    match t, stack with
    | .rbrack, .arrayValue items :: rest => complete (.arr items.reverse) rest
    | _, _ => beginValue stack t
  | .beginStringOrEmpty =>
    match t, stack with
    | .rbrace, .objectKey fields _ :: rest => complete (.obj fields.reverse) rest
    | _, _ => beginString stack t
  | .beginString => beginString stack t
  | .endValue =>
    match stack, t with
    | .objectKey fields key :: rest, .colon => some (.beginValue, .objectValue fields key :: rest)
    | .objectValue fields _ :: rest, .comma => some (.beginString, .objectKey fields "" :: rest)
    | .objectValue fields _ :: rest, .rbrace => complete (.obj fields.reverse) rest
    | .arrayValue items :: rest, .comma => some (.beginValue, .arrayValue items :: rest)
    | .arrayValue items :: rest, .rbrack => complete (.arr items.reverse) rest
    | _, _ => none
  | .endTop _ => none

/-- The scanner run over the elements of a text. -/
def run : Step → List Frame → List Token → Option Value
  | .endTop v, _, [] => some v
  | _, _, [] => none
  | st, stack, t :: ts =>
    match step st stack t with
    | none => none
    | some (st1, stack1) => run st1 stack1 ts

/-- The value written by a JSON text; `none` when `checkValid` of `encoding/json`
rejects the text. -/
def parse (data : String) : Option Value :=
  match lex .between data.data [] with
  | none => none
  | some toks => run .beginValue [] toks

/-- Go: the errors `json.Unmarshal` returns here: a `*SyntaxError`, or an
`*UnmarshalTypeError` with the description of the JSON value (`"object"`,
`"array"`, `"string"`, `"number"`, `"bool"`) that did not fit the Go type. -/
inductive Error where
  | syntaxError
  | unmarshalTypeError (value : String)
deriving DecidableEq, Repr

/-- Go: the element type of `gemmaResponse`,
`struct { GeneratedText string "json:\"generated_text\"" }`. -/
structure GemmaItem where
  GeneratedText : String
deriving DecidableEq, Repr

/-- Upper case of an ASCII letter, any other character unchanged. -/
def foldChar (c : Char) : Char :=
  if 97 ≤ c.toNat ∧ c.toNat ≤ 122 then Char.ofNat (c.toNat - 32) else c

/-- Go: the match of an object key with the field name `generated_text`: equal up
to the case of ASCII letters. (No character outside ASCII folds to a letter of
this name, so the Unicode part of the folding plays no role.) -/
def matchesField (key : String) : Bool :=
  decide (key.data.map foldChar = "GENERATED_TEXT".data)

/-- Go: the description of a JSON value in an `UnmarshalTypeError`. -/
def kindName (v : Value) : String :=
  match v with
  | .null => "null"
  | .bool _ => "bool"
  | .number _ => "number"
  | .str _ => "string"
  | .arr _ => "array"
  | .obj _ => "object"

/-- Go: the decoding of the members of an object into the struct: a key that
matches the field stores a string, leaves the field alone on `null` and is a type
error otherwise; any other key is skipped. -/
def decodeFields : List (String × Value) → GemmaItem → Except Error GemmaItem
  | [], item => .ok item
  | (key, v) :: rest, item =>
    if matchesField key then
      match v with
      | .str s => decodeFields rest { GeneratedText := s }
      | .null => decodeFields rest item
      | other => .error (.unmarshalTypeError (kindName other))
    else decodeFields rest item

/-- Go: the decoding of one array element into the struct: an object is decoded
member by member, `null` leaves the zero value, anything else is a type error. -/
def decodeItem (v : Value) : Except Error GemmaItem :=
  match v with
  | .obj fields => decodeFields fields { GeneratedText := "" }
  | .null => .ok { GeneratedText := "" }
  | other => .error (.unmarshalTypeError (kindName other))

/-- Go: the decoding of the elements of an array into the slice, in order. -/
def decodeItems : List Value → Except Error (List GemmaItem)
  | [] => .ok []
  | v :: rest =>
    match decodeItem v with
    | .error e => .error e
    | .ok item =>
      match decodeItems rest with
      | .error e => .error e
      | .ok items => .ok (item :: items)

/-- Go: the decoding of the top-level value into `[]struct{...}`: an array is
decoded element by element, `null` gives the nil slice, anything else is a type
error. -/
def decodeTop (v : Value) : Except Error (List GemmaItem) :=
  match v with
  | .arr items => decodeItems items
  | .null => .ok []
  | other => .error (.unmarshalTypeError (kindName other))

/-- Go: `json.Unmarshal(data, &gemmaResponse)`: the text is checked first, then
decoded; the error returned is the first one met. -/
def Unmarshal (data : String) : Except Error (List GemmaItem) :=
  match parse data with
  | none => .error .syntaxError
  | some v => decodeTop v

end json

/-! ## The outside world -/

/-- The request `queryGemma` sends: method, URL, headers, and the payload that
`json.Marshal` serialises into the body (the prompt under `inputs`, and the two
entries of `parameters` with their JSON literals). -/
structure HttpRequest where
  method : String
  url : String
  headers : List (String × String)
  inputs : String
  parameters : List (String × String)
deriving DecidableEq, Repr

/-- What comes back from `client.Do(req)` followed by `io.ReadAll(resp.Body)`: the
call fails, or the body cannot be read, or a status code and a body arrive. -/
inductive HttpOutcome where
  | failed (cause : String)
  | unreadable (status : Int) (cause : String)
  | response (status : Int) (body : String)
deriving DecidableEq, Repr

/-- The world a run takes place in: the answer of the network to each request, and,
for a text that `json.Unmarshal` rejects, the message (`Error()`) of the error it
returns, which depends on the text and which this development does not spell out. -/
structure World where
  Do : HttpRequest → HttpOutcome
  decodeErrorText : String → String

/-- A run: the outbound requests sent, in order, and what was returned: a value,
or an error given by its message. -/
structure Outcome (α : Type) where
  calls : List HttpRequest
  result : Except String α
deriving DecidableEq, Repr

/-! ## Package `mcp` -/

namespace mcp

/-- Go: `mcp.CallToolRequest`, reduced to `Params.Name` and `Params.Arguments`
(a map from argument name to decoded JSON value). -/
structure CallToolParams where
  Name : String
  Arguments : List (String × json.Value)

structure CallToolRequest where
  Params : CallToolParams

/-- Go: `mcp.TextContent`. -/
structure TextContent where
  type : String
  Text : String
deriving DecidableEq, Repr

/-- Go: `mcp.CallToolResult`. -/
structure CallToolResult where
  Content : List TextContent
  IsError : Bool
deriving DecidableEq, Repr

/-- Go: `mcp.NewToolResultText(text)`. -/
def NewToolResultText (text : String) : CallToolResult :=
  { Content := [{ type := "text", Text := text }], IsError := false }

end mcp

/-! ## `main.go` -/

def qaEndpoint : String := "https://api-inference.huggingface.co/models/google/gemma-3-27b-it"

def hfToken : String := ""

/-- The request built by `queryGemma` for a prompt. -/
def gemmaRequest (prompt : String) : HttpRequest :=
  { method := "POST"
    url := qaEndpoint
    headers := [("Authorization", "Bearer " ++ hfToken), ("Content-Type", "application/json")]
    inputs := prompt
    parameters := [("max_new_tokens", "200"), ("temperature", "0.7")] }

/-- Go: `queryGemma(prompt)`. `json.Marshal` of the payload and `http.NewRequest`
with these constants cannot fail, so their error branches are not reached; the
one request is sent, and the answer is handled as in the source. -/
def queryGemma (w : World) (prompt : String) : Outcome String :=
  let req := gemmaRequest prompt
  match w.Do req with
  | .failed cause => { calls := [req], result := .error ("request failed: " ++ cause) }
  | .unreadable _ cause =>
    { calls := [req], result := .error ("failed to read response body: " ++ cause) }
  | .response status respBody =>
    if status ≠ 200 then
      { calls := [req]
        result := .error ("API error " ++ strconv.Itoa status ++ ": " ++ respBody) }
    else
      match json.Unmarshal respBody with
      | .error _ =>
        { calls := [req]
          result := .error ("failed to parse response: " ++ w.decodeErrorText respBody) }
      | .ok gemmaResponse =>
        match gemmaResponse with
        | [] => { calls := [req], result := .ok "No historical events found for this date" }
        | first :: _ =>
          if first.GeneratedText = "" then
            { calls := [req], result := .ok "No historical events found for this date" }
          else { calls := [req], result := .ok first.GeneratedText }

/-- The format string of the prompt up to its first verb. -/
def promptPart1 : String := "Provide exactly two significant historical events that happened on "

/-- The format string of the prompt between its second and third verb. -/
def promptPart2 : String :=
  ".\nThe events must have occurred on this exact date (same month and day).\nFormat your response exactly as:\n1. [Year] Event description\n2. [Year] Event description\n\nIf no events match this exact date, say \"No significant historical events found for "

/-- The format string of the prompt after its last verb. -/
def promptPart3 : String := ".\""

/-- Go: the `fmt.Sprintf` call that builds the prompt from `monthDay` and `year`
(verbs `%s %d`, twice). -/
def buildPrompt (monthDay : String) (year : Int) : String :=
  promptPart1 ++ monthDay ++ " " ++ strconv.Itoa year ++ promptPart2 ++
    monthDay ++ " " ++ strconv.Itoa year ++ promptPart3

/-- Go: `historicalEventsHandler(ctx, req)`. -/
def historicalEventsHandler (w : World) (req : mcp.CallToolRequest) :
    Outcome mcp.CallToolResult :=
  match req.Params.Arguments.lookup "date" with
  | some (.str date) =>
    match time.Parse date with
    | .error _ => { calls := [], result := .error "invalid date format, must be YYYY-MM-DD" }
    | .ok parsedDate =>
      let year := parsedDate.Year
      let monthDay := parsedDate.Format_January_2
      let prompt := buildPrompt monthDay year
      let q := queryGemma w prompt
      match q.result with
      | .error err => { calls := q.calls, result := .error ("failed to get events: " ++ err) }
      | .ok answer =>
        let cleanedAnswer := strings.TrimSpace answer
        if strings.Contains cleanedAnswer "No significant historical events" then
          { calls := q.calls
            result := .ok (mcp.NewToolResultText
              ("No historical events found for " ++ monthDay ++ " " ++ strconv.Itoa year)) }
        else
          { calls := q.calls
            result := .ok (mcp.NewToolResultText
              ("On " ++ monthDay ++ " " ++ strconv.Itoa year ++ ":\n" ++ cleanedAnswer)) }
  | _ => { calls := [], result := .error "date must be a string" }

/-! ## The specification's vocabulary

Definitions that follow the words of the specification, to be compared with the
ones above. -/

/-- A character that is a decimal digit. -/
def isDig (c : Char) : Prop := 48 ≤ c.toNat ∧ c.toNat ≤ 57

instance (c : Char) : Decidable (isDig c) := by unfold isDig; infer_instance

namespace Spec

/-- The integer written by a string of decimal digits. -/
def digitsValue (ds : List Char) : Nat := ds.foldl (fun n c => 10 * n + (c.toNat - 48)) 0

/-- The pattern `YYYY-MM-DD`: four digits, `-`, two digits, `-`, two digits. -/
def hasShape (s : String) : Bool :=
  match s.data with
  | [y1, y2, y3, y4, h1, m1, m2, h2, d1, d2] =>
    decide (isDig y1 ∧ isDig y2 ∧ isDig y3 ∧ isDig y4 ∧ h1 = '-' ∧ isDig m1 ∧ isDig m2 ∧
      h2 = '-' ∧ isDig d1 ∧ isDig d2)
  | _ => false

/-- The value of the digits `YYYY`. -/
def yearOf (s : String) : Nat := digitsValue (s.data.take 4)

/-- The value of the digits `MM`. -/
def monthOf (s : String) : Nat := digitsValue ((s.data.drop 5).take 2)

/-- The value of the digits `DD`. -/
def dayOf (s : String) : Nat := digitsValue ((s.data.drop 8).take 2)

/-- The Gregorian leap-year rule. -/
def isLeapYear (y : Nat) : Bool :=
  decide (y % 400 = 0) || (decide (y % 4 = 0) && decide (y % 100 ≠ 0))

/-- The number of days of month `m` in year `y`. -/
def daysInMonth (y m : Nat) : Nat :=
  match m with
  | 1 => 31
  | 2 => if isLeapYear y then 29 else 28
  | 3 => 31
  | 4 => 30
  | 5 => 31
  | 6 => 30
  | 7 => 31
  | 8 => 31
  | 9 => 30
  | 10 => 31
  | 11 => 30
  | 12 => 31
  | _ => 0

/-- A string of the shape `YYYY-MM-DD` that names a day of the calendar. -/
def isCalendarDate (s : String) : Bool :=
  hasShape s && decide (1 ≤ monthOf s ∧ monthOf s ≤ 12 ∧ 1 ≤ dayOf s ∧
    dayOf s ≤ daysInMonth (yearOf s) (monthOf s))

/-- The full English name of month `m`. -/
def monthName (m : Nat) : String :=
  match m with
  | 1 => "January"
  | 2 => "February"
  | 3 => "March"
  | 4 => "April"
  | 5 => "May"
  | 6 => "June"
  | 7 => "July"
  | 8 => "August"
  | 9 => "September"
  | 10 => "October"
  | 11 => "November"
  | 12 => "December"
  | _ => ""

/-- The month-day label of a date string: month name, one space, the day of the
month in decimal without leading zero. -/
def label (s : String) : String := monthName (monthOf s) ++ " " ++ toString (dayOf s)

/-- The label and the year of a date string as they are written into a text: the
label, one space, the year in decimal. -/
def labelAndYear (s : String) : String := label s ++ " " ++ toString (yearOf s)

/-- A member of an element fits the expected structure when it is not the
`generated_text` member (the key is compared without regard to the case of ASCII
letters), or holds a string or `null`. -/
def memberFits (kv : String × json.Value) : Bool :=
  !json.matchesField kv.1 ||
    (match kv.2 with
     | .str _ => true
     | .null => true
     | _ => false)

/-- An element fits when it is `null` or an object all of whose members fit. -/
def elementFits (v : json.Value) : Bool :=
  match v with
  | .null => true
  | .obj fields => fields.all memberFits
  | _ => false

/-- A body fits when it is `null` or a list all of whose elements fit. -/
def bodyFits (v : json.Value) : Bool :=
  match v with
  | .null => true
  | .arr items => items.all elementFits
  | _ => false

/-- The number of positions of a text at which `pat` starts. -/
def countOccurrences (pat : List Char) : List Char → Nat
  | [] => 0
  | c :: cs => (if pat.isPrefixOf (c :: cs) then 1 else 0) + countOccurrences pat cs

/-- The number of occurrences of `pat` in `s`. -/
def occurrences (s pat : String) : Nat := countOccurrences pat.data s.data

/-- An object that exposes a `generated_text` string field. -/
def exposesText (v : json.Value) : Bool :=
  match v with
  | .obj fields =>
    fields.any fun kv =>
      decide (kv.1 = "generated_text") &&
        (match kv.2 with
         | .str _ => true
         | _ => false)
  | _ => false

/-- The expected structure of a body, in the words of the specification: valid
JSON that is a list of objects each exposing a `generated_text` string field. -/
def matchesExpectedStructure (body : String) : Bool :=
  match json.parse body with
  | some (.arr items) => items.all exposesText
  | _ => false

end Spec

/-- An upper-case ASCII letter. -/
def isUpper (c : Char) : Bool := decide (65 ≤ c.toNat) && decide (c.toNat ≤ 90)

/-- No occurrence of `K` starts inside `X` when `X` is followed by `K`. -/
def noStartOf (K : List Char) : List Char → Bool
  | [] => true
  | x :: xs => !(K.isPrefixOf (x :: xs ++ K)) && noStartOf K xs

/-! ## Sample worlds and requests -/

/-- A call of the tool with the given value bound to `date` and nothing else. -/
def requestWith (date : json.Value) : mcp.CallToolRequest :=
  { Params := { Name := "historical_events", Arguments := [("date", date)] } }

/-- A call of the tool without any argument. -/
def requestWithout : mcp.CallToolRequest :=
  { Params := { Name := "historical_events", Arguments := [] } }

/-- A world in which every request is answered with the given status and body.
The only bodies it is used with that `json.Unmarshal` rejects are texts that end
before their value is complete, for which the message of `encoding/json` is
`unexpected end of JSON input`. -/
def worldReplying (status : Int) (body : String) : World :=
  { Do := fun _ => .response status body
    decodeErrorText := fun _ => "unexpected end of JSON input" }

/-! ## Facts about the library functions -/

theorem isDigit_zero_cons (c : Char) (l : List Char) :
    time.isDigit (c :: l) 0 = decide (isDig c) := by
  simp [time.isDigit, isDig]

theorem isDigit_one_cons (a c : Char) (l : List Char) :
    time.isDigit (a :: c :: l) 1 = decide (isDig c) := by
  simp [time.isDigit, isDig]

theorem getnum_fixed_cons (a b : Char) (l : List Char) :
    time.getnum (a :: b :: l) true =
      if isDig a ∧ isDig b then .ok (time.digitVal a * 10 + time.digitVal b, l)
      else .error .bad := by
  by_cases ha : isDig a <;> by_cases hb : isDig b <;>
    simp [time.getnum, ha, hb, isDigit_zero_cons, isDigit_one_cons]

theorem getnum_fixed_ok (s r : List Char) (n : Nat) :
    time.getnum s true = .ok (n, r) ↔
      ∃ a b, s = a :: b :: r ∧ isDig a ∧ isDig b ∧
        n = time.digitVal a * 10 + time.digitVal b := by
  rcases s with _ | ⟨a, _ | ⟨b, l⟩⟩
  · simp [time.getnum, time.isDigit]
  · simp [time.getnum, time.isDigit]
  · rw [getnum_fixed_cons]
    constructor
    · intro h
      split at h
      · rename_i hd
        injection h with h
        injection h with h1 h2
        exact ⟨a, b, by rw [h2], hd.1, hd.2, h1.symm⟩
      · exact absurd h (by simp)
    · rintro ⟨a1, b1, h, ha, hb, rfl⟩
      injection h with h1 h
      injection h with h2 h3
      subst h1 h2 h3
      simp [ha, hb]

theorem skip_dash_ok (s r : List Char) :
    time.skip s ['-'] = .ok r ↔ s = '-' :: r := by
  rcases s with _ | ⟨a, l⟩
  · simp [time.skip]
  · by_cases h : a = '-'
    · subst h
      simp [time.skip]
    · simp [time.skip, h]

theorem leadingInt_digit (c : Char) (rest : List Char) (x : Nat) (hc : isDig c)
    (hx : x ≤ 1000) :
    time.leadingInt (c :: rest) x = time.leadingInt rest (x * 10 + time.digitVal c) := by
  obtain ⟨h1, h2⟩ := hc
  have e1 : ¬ c.toNat < 48 := by omega
  have e2 : ¬ 57 < c.toNat := by omega
  have e3 : ¬ x > 2 ^ 63 / 10 := by norm_num; omega
  have e4 : ¬ x * 10 + (c.toNat - 48) > 2 ^ 63 := by norm_num; omega
  simp only [time.leadingInt, e1, e2, e3, e4, time.digitVal]
  simp

theorem leadingInt_nondigit (c : Char) (rest : List Char) (x : Nat) (hc : ¬ isDig c) :
    time.leadingInt (c :: rest) x = some (x, c :: rest) := by
  have : c.toNat < 48 ∨ 57 < c.toNat := by
    unfold isDig at hc; omega
  rcases this with h | h <;> simp [time.leadingInt, h]

theorem digitVal_le (c : Char) (hc : isDig c) : time.digitVal c ≤ 9 := by
  obtain ⟨h1, h2⟩ := hc
  unfold time.digitVal; omega

theorem atoi_four (a b c d : Char) (ha : isDig a) :
    time.atoi [a, b, c, d] =
      if isDig b ∧ isDig c ∧ isDig d then
        .ok (((((time.digitVal a * 10 + time.digitVal b) * 10 + time.digitVal c) * 10
          + time.digitVal d : Nat) : Int))
      else .error .bad := by
  have hm : a ≠ '-' := by
    rintro rfl; revert ha; decide
  have hp : a ≠ '+' := by
    rintro rfl; revert ha; decide
  have hda := digitVal_le a ha
  have e0 : time.leadingInt [a, b, c, d] 0 = time.leadingInt [b, c, d] (time.digitVal a) := by
    rw [leadingInt_digit a _ 0 ha (by omega)]; simp
  simp only [time.atoi, List.head?_cons, Option.some.injEq, hm, hp, decide_False, Bool.or_self,
    Bool.false_eq_true, if_false, e0]
  by_cases hb : isDig b
  · have hdb := digitVal_le b hb
    rw [leadingInt_digit b _ _ hb (by omega)]
    by_cases hc : isDig c
    · have hdc := digitVal_le c hc
      rw [leadingInt_digit c _ _ hc (by omega)]
      by_cases hd : isDig d
      · rw [leadingInt_digit d _ _ hd (by omega)]
        simp [time.leadingInt, hb, hc, hd]
      · rw [leadingInt_nondigit d _ _ hd]
        simp [hd]
    · rw [leadingInt_nondigit c _ _ hc]
      simp [hc]
  · rw [leadingInt_nondigit b _ _ hb]
    simp [hb]

theorem parse_ok_shape (s : String) (t : time.Time) (h : time.Parse s = .ok t) :
    ∃ y1 y2 y3 y4 m1 m2 d1 d2 : Char,
      s.data = [y1, y2, y3, y4, '-', m1, m2, '-', d1, d2] ∧
      isDig y1 ∧ isDig y2 ∧ isDig y3 ∧ isDig y4 ∧ isDig m1 ∧ isDig m2 ∧ isDig d1 ∧ isDig d2 ∧
      t.year = ((((time.digitVal y1 * 10 + time.digitVal y2) * 10 + time.digitVal y3) * 10
          + time.digitVal y4 : Nat) : Int) ∧
      t.month = time.digitVal m1 * 10 + time.digitVal m2 ∧
      t.day = time.digitVal d1 * 10 + time.digitVal d2 ∧
      1 ≤ t.month ∧ t.month ≤ 12 ∧ 1 ≤ t.day ∧ t.day ≤ time.daysIn t.month t.year := by
  unfold time.Parse at h
  simp only at h
  split at h
  · exact absurd h (by simp)
  · rename_i h0
    split at h
    · exact absurd h (by simp)
    · rename_i year hy
      split at h
      · exact absurd h (by simp)
      · rename_i v1 hv1
        split at h
        · exact absurd h (by simp)
        · rename_i month v2 hm
          split at h
          · exact absurd h (by simp)
          · rename_i hmr
            split at h
            · exact absurd h (by simp)
            · rename_i v3 hv3
              split at h
              · exact absurd h (by simp)
              · rename_i day v4 hd
                split at h
                · exact absurd h (by simp)
                · rename_i hv4
                  split at h
                  · exact absurd h (by simp)
                  · rename_i hdr
                    injection h with h
                    subst h
                    generalize s.data = l at *
                    rcases l with _ | ⟨y1, _ | ⟨y2, _ | ⟨y3, _ | ⟨y4, rest⟩⟩⟩⟩
                    · simp at h0
                    · simp at h0
                    · simp at h0
                    · simp at h0
                    have hy1 : isDig y1 := by
                      simpa [isDigit_zero_cons] using h0
                    simp only [List.take_succ_cons, List.take_zero] at hy
                    rw [atoi_four _ _ _ _ hy1] at hy
                    split at hy
                    · rename_i hyd
                      injection hy with hy
                      simp only [List.drop_succ_cons, List.drop_zero] at hv1
                      rw [skip_dash_ok] at hv1 hv3
                      rw [getnum_fixed_ok] at hm hd
                      obtain ⟨m1, m2, rfl, hm1, hm2, rfl⟩ := hm
                      obtain ⟨d1, d2, rfl, hd1, hd2, rfl⟩ := hd
                      subst hv1 hv3
                      have : v4 = [] := by
                        cases v4
                        · rfl
                        · simp at hv4
                      subst this
                      refine ⟨y1, y2, y3, y4, m1, m2, d1, d2, rfl, hy1, hyd.1, hyd.2.1, hyd.2.2,
                        hm1, hm2, hd1, hd2, hy.symm, rfl, rfl, ?_, ?_, ?_, ?_⟩
                      · simp only at hmr ⊢; omega
                      · simp only at hmr ⊢; omega
                      · simp only at hdr ⊢; omega
                      · simp only at hdr ⊢; omega
                    · exact absurd hy (by simp)


theorem parse_of_shape (s : String) (y1 y2 y3 y4 m1 m2 d1 d2 : Char)
    (hs : s.data = [y1, y2, y3, y4, '-', m1, m2, '-', d1, d2])
    (hy1 : isDig y1) (hy2 : isDig y2) (hy3 : isDig y3) (hy4 : isDig y4)
    (hm1 : isDig m1) (hm2 : isDig m2) (hd1 : isDig d1) (hd2 : isDig d2)
    (hm : 1 ≤ time.digitVal m1 * 10 + time.digitVal m2 ∧
      time.digitVal m1 * 10 + time.digitVal m2 ≤ 12)
    (hd : 1 ≤ time.digitVal d1 * 10 + time.digitVal d2 ∧
      time.digitVal d1 * 10 + time.digitVal d2 ≤
        time.daysIn (time.digitVal m1 * 10 + time.digitVal m2)
          ((((time.digitVal y1 * 10 + time.digitVal y2) * 10 + time.digitVal y3) * 10
            + time.digitVal y4 : Nat) : Int)) :
    time.Parse s = .ok
      { year := ((((time.digitVal y1 * 10 + time.digitVal y2) * 10 + time.digitVal y3) * 10
            + time.digitVal y4 : Nat) : Int)
        month := time.digitVal m1 * 10 + time.digitVal m2
        day := time.digitVal d1 * 10 + time.digitVal d2 } := by
  have e1 : ¬ (time.digitVal m1 * 10 + time.digitVal m2 ≤ 0 ∨
      12 < time.digitVal m1 * 10 + time.digitVal m2) := by omega
  have e2 : ¬ (time.digitVal d1 * 10 + time.digitVal d2 < 1 ∨
      time.digitVal d1 * 10 + time.digitVal d2 >
        time.daysIn (time.digitVal m1 * 10 + time.digitVal m2)
          ((((time.digitVal y1 * 10 + time.digitVal y2) * 10 + time.digitVal y3) * 10
            + time.digitVal y4 : Nat) : Int)) := by omega
  unfold time.Parse
  simp only [hs]
  simp [isDigit_zero_cons, hy1, atoi_four, hy2, hy3, hy4, time.skip, getnum_fixed_cons,
    hm1, hm2, hd1, hd2]
  push_cast at hd
  split
  · omega
  · split
    · omega
    · rfl

theorem isLeap_natCast (y : Nat) : time.isLeap (y : Int) = Spec.isLeapYear y := by
  unfold time.isLeap Spec.isLeapYear
  have h4 : ((y : Int) % 4 = 0) ↔ (y % 4 = 0) := by omega
  have h100 : ((y : Int) % 100 = 0) ↔ (y % 100 = 0) := by omega
  have h400 : ((y : Int) % 400 = 0) ↔ (y % 400 = 0) := by omega
  by_cases c4 : y % 4 = 0 <;> by_cases c100 : y % 100 = 0 <;> by_cases c400 : y % 400 = 0 <;>
    simp [h4, h100, h400, c4, c100, c400] <;> omega

theorem daysIn_eq (m y : Nat) (h1 : 1 ≤ m) (h2 : m ≤ 12) :
    time.daysIn m (y : Int) = Spec.daysInMonth y m := by
  unfold time.daysIn
  rw [isLeap_natCast]
  interval_cases m <;> cases hl : Spec.isLeapYear y <;>
    simp [Spec.daysInMonth, time.daysBefore, hl]

theorem parse_ok_calendarDate (s : String) (t : time.Time) (h : time.Parse s = .ok t) :
    Spec.isCalendarDate s = true ∧
      t = { year := (Spec.yearOf s : Int), month := Spec.monthOf s, day := Spec.dayOf s } := by
  obtain ⟨y1, y2, y3, y4, m1, m2, d1, d2, hs, hy1, hy2, hy3, hy4, hm1, hm2, hd1, hd2, ey, em, ed,
    r1, r2, r3, r4⟩ := parse_ok_shape s t h
  have eY : Spec.yearOf s = ((time.digitVal y1 * 10 + time.digitVal y2) * 10 + time.digitVal y3) * 10
      + time.digitVal y4 := by
    simp [Spec.yearOf, hs, Spec.digitsValue, time.digitVal]; omega
  have eM : Spec.monthOf s = time.digitVal m1 * 10 + time.digitVal m2 := by
    simp [Spec.monthOf, hs, Spec.digitsValue, time.digitVal]; omega
  have eD : Spec.dayOf s = time.digitVal d1 * 10 + time.digitVal d2 := by
    simp [Spec.dayOf, hs, Spec.digitsValue, time.digitVal]; omega
  have et : t = { year := (Spec.yearOf s : Int), month := Spec.monthOf s, day := Spec.dayOf s } := by
    rcases t with ⟨ty, tm, td⟩
    simp only at ey em ed
    rw [eY, eM, eD, ey, em, ed]
  refine ⟨?_, et⟩
  rw [et] at r1 r2 r3 r4
  simp only at r1 r2 r3 r4
  rw [daysIn_eq _ _ r1 r2] at r4
  simp only [Spec.isCalendarDate, Spec.hasShape, hs]
  simp [hy1, hy2, hy3, hy4, hm1, hm2, hd1, hd2, r1, r2, r3, r4]

theorem parse_of_calendarDate (s : String) (h : Spec.isCalendarDate s = true) :
    time.Parse s =
      .ok { year := (Spec.yearOf s : Int), month := Spec.monthOf s, day := Spec.dayOf s } := by
  unfold Spec.isCalendarDate at h
  rw [Bool.and_eq_true, decide_eq_true_eq] at h
  obtain ⟨hsh, r1, r2, r3, r4⟩ := h
  unfold Spec.hasShape at hsh
  split at hsh
  · rename_i y1 y2 y3 y4 h1 m1 m2 h2 d1 d2 hs
    rw [decide_eq_true_eq] at hsh
    obtain ⟨hy1, hy2, hy3, hy4, rfl, hm1, hm2, rfl, hd1, hd2⟩ := hsh
    have eY : Spec.yearOf s = ((time.digitVal y1 * 10 + time.digitVal y2) * 10
        + time.digitVal y3) * 10 + time.digitVal y4 := by
      simp [Spec.yearOf, hs, Spec.digitsValue, time.digitVal]; omega
    have eM : Spec.monthOf s = time.digitVal m1 * 10 + time.digitVal m2 := by
      simp [Spec.monthOf, hs, Spec.digitsValue, time.digitVal]; omega
    have eD : Spec.dayOf s = time.digitVal d1 * 10 + time.digitVal d2 := by
      simp [Spec.dayOf, hs, Spec.digitsValue, time.digitVal]; omega
    rw [← daysIn_eq _ _ r1 r2] at r4
    rw [eY, eM, eD] at r4
    rw [eM] at r1 r2
    rw [eD] at r3
    rw [eY, eM, eD]
    exact parse_of_shape s y1 y2 y3 y4 m1 m2 d1 d2 hs hy1 hy2 hy3 hy4 hm1 hm2 hd1 hd2
      ⟨r1, r2⟩ ⟨r3, r4⟩
  · exact absurd hsh (by simp)

theorem parse_error_of_not_calendarDate (s : String) (h : Spec.isCalendarDate s = false) :
    ∃ e, time.Parse s = .error e := by
  cases hp : time.Parse s with
  | error e => exact ⟨e, rfl⟩
  | ok t =>
    have := (parse_ok_calendarDate s t hp).1
    rw [h] at this
    exact absurd this (by simp)

theorem digitChar_eq (d : Nat) (h : d < 10) : Nat.digitChar d = Char.ofNat (48 + d) := by
  interval_cases d <;> rfl

theorem formatBits_eq_toDigitsCore (fuel u : Nat) (acc : List Char) :
    strconv.formatBits fuel u acc = Nat.toDigitsCore 10 fuel u acc := by
  induction fuel generalizing u acc with
  | zero => rfl
  | succ n ih =>
    simp only [strconv.formatBits, Nat.toDigitsCore]
    by_cases h : u < 10
    · have h1 : u / 10 = 0 := by omega
      have h2 : u % 10 = u := by omega
      simp [h, h1, h2, digitChar_eq u h]
    · have h1 : u / 10 ≠ 0 := by omega
      simp only [h, h1, if_false]
      rw [ih, digitChar_eq (u % 10) (by omega)]

theorem Itoa_natCast (n : Nat) : strconv.Itoa (n : Int) = toString n := by
  have h : ¬ ((n : Int) < 0) := by omega
  simp only [strconv.Itoa, h, if_false, Int.natAbs_ofNat, formatBits_eq_toDigitsCore]
  rfl

theorem monthString_eq (m : Nat) (h1 : 1 ≤ m) (h2 : m ≤ 12) :
    time.monthString m = Spec.monthName m := by
  interval_cases m <;> rfl

/-- The label and the year that the handler derives from a date string it accepts. -/
theorem parse_label_year (s : String) (t : time.Time) (h : time.Parse s = .ok t) :
    t.Format_January_2 = Spec.label s ∧ t.Year = (Spec.yearOf s : Int) := by
  obtain ⟨hc, rfl⟩ := parse_ok_calendarDate s t h
  unfold Spec.isCalendarDate at hc
  rw [Bool.and_eq_true, decide_eq_true_eq] at hc
  obtain ⟨_, r1, r2, _, _⟩ := hc
  refine ⟨?_, rfl⟩
  simp only [time.Time.Format_January_2, Spec.label, monthString_eq _ r1 r2, Itoa_natCast]

theorem indexList_isSome_iff (l p : List Char) :
    (strings.indexList l p).isSome = true ↔ p <:+: l := by
  induction l with
  | nil =>
    simp only [strings.indexList]
    by_cases h : p = []
    · simp [h]
    · simp [h]
  | cons c cs ih =>
    simp only [strings.indexList]
    rw [List.infix_cons_iff, ← ih, ← List.isPrefixOf_iff_prefix]
    by_cases h : p.isPrefixOf (c :: cs) = true
    · simp [h]
    · simp [h]

theorem Contains_iff (s p : String) : strings.Contains s p = true ↔ p.data <:+: s.data :=
  indexList_isSome_iff s.data p.data

theorem dropWhile_keeps (f : Char → Bool) (a b : List Char) (x : Char) (p : List Char)
    (hx : f x = false) :
    ∃ a1, List.dropWhile f (a ++ x :: p ++ b) = a1 ++ x :: p ++ b := by
  induction a with
  | nil => exact ⟨[], by simp [List.dropWhile, hx]⟩
  | cons c cs ih =>
    by_cases hc : f c = true
    · obtain ⟨a1, h⟩ := ih
      exact ⟨a1, by simpa [List.dropWhile, hc] using h⟩
    · exact ⟨c :: cs, by simp [List.dropWhile, hc]⟩

/-- Trimming white space keeps every occurrence of a text that starts and ends
with a character other than white space. -/
theorem infix_trimSpaceList (l p : List Char) (hp : p ≠ [])
    (hfirst : ∀ x ∈ p.head?, strings.isSpace x = false)
    (hlast : ∀ x ∈ p.getLast?, strings.isSpace x = false) (h : p <:+: l) :
    p <:+: strings.trimSpaceList l := by
  obtain ⟨a, b, rfl⟩ := h
  obtain ⟨x, q, rfl⟩ := List.exists_cons_of_ne_nil hp
  have hx : strings.isSpace x = false := hfirst x (by simp)
  obtain ⟨a1, h1⟩ := dropWhile_keeps strings.isSpace a b x q hx
  have hr : (x :: q).reverse ≠ [] := by simp
  obtain ⟨y, r, hyr⟩ := List.exists_cons_of_ne_nil hr
  have hy : strings.isSpace y = false := by
    apply hlast
    have : (x :: q).getLast? = some y := by
      rw [List.getLast?_eq_head?_reverse, hyr]; rfl
    simpa using this
  obtain ⟨b1, h2⟩ := dropWhile_keeps strings.isSpace b.reverse a1.reverse y r hy
  unfold strings.trimSpaceList
  have e : (a ++ x :: q) ++ b = a ++ x :: q ++ b := by simp
  rw [e, h1]
  have e2 : (a1 ++ x :: q ++ b).reverse = b.reverse ++ y :: r ++ a1.reverse := by
    simp only [List.reverse_append, hyr, List.append_assoc]
  rw [e2, h2]
  have e3 : (b1 ++ y :: r ++ a1.reverse).reverse = a1 ++ (x :: q) ++ b1.reverse := by
    have : (y :: r).reverse = x :: q := by rw [← hyr, List.reverse_reverse]
    simp only [List.reverse_append, List.reverse_reverse, this, List.append_assoc]
  rw [e3]
  exact ⟨a1, b1.reverse, rfl⟩

/-! ## The handler on a date it accepts -/

theorem handler_calls_of_parse (w : World) (req : mcp.CallToolRequest) (s : String)
    (t : time.Time) (h : req.Params.Arguments.lookup "date" = some (.str s))
    (hp : time.Parse s = .ok t) :
    (historicalEventsHandler w req).calls =
      [gemmaRequest (buildPrompt t.Format_January_2 t.Year)] := by
  unfold historicalEventsHandler
  simp only [h, hp]
  have hq : ∀ p, (queryGemma w p).calls = [gemmaRequest p] := by
    intro p
    unfold queryGemma
    simp only
    split
    · rfl
    · rfl
    · split
      · rfl
      · split
        · rfl
        · split
          · rfl
          · split <;> rfl
  split
  · exact hq _
  · split <;> exact hq _

theorem handler_result_of_answer (w : World) (req : mcp.CallToolRequest) (s : String)
    (t : time.Time) (answer : String)
    (h : req.Params.Arguments.lookup "date" = some (.str s)) (hp : time.Parse s = .ok t)
    (hq : (queryGemma w (buildPrompt t.Format_January_2 t.Year)).result = .ok answer) :
    (historicalEventsHandler w req).result =
      if strings.Contains (strings.TrimSpace answer) "No significant historical events" then
        .ok (mcp.NewToolResultText
          ("No historical events found for " ++ t.Format_January_2 ++ " " ++ strconv.Itoa t.Year))
      else
        .ok (mcp.NewToolResultText
          ("On " ++ t.Format_January_2 ++ " " ++ strconv.Itoa t.Year ++ ":\n" ++
            strings.TrimSpace answer)) := by
  unfold historicalEventsHandler
  simp only [h, hp, hq]
  split <;> rfl

theorem handler_result_of_failure (w : World) (req : mcp.CallToolRequest) (s : String)
    (t : time.Time) (err : String)
    (h : req.Params.Arguments.lookup "date" = some (.str s)) (hp : time.Parse s = .ok t)
    (hq : (queryGemma w (buildPrompt t.Format_January_2 t.Year)).result = .error err) :
    (historicalEventsHandler w req).result = .error ("failed to get events: " ++ err) := by
  unfold historicalEventsHandler
  simp only [h, hp, hq]

/-! ## Which bodies `json.Unmarshal` decodes -/

theorem decodeFields_of_fits (fields : List (String × json.Value)) (item : json.GemmaItem)
    (h : fields.all Spec.memberFits = true) : ∃ r, json.decodeFields fields item = .ok r := by
  induction fields generalizing item with
  | nil => exact ⟨item, rfl⟩
  | cons kv rest ih =>
    obtain ⟨key, v⟩ := kv
    rw [List.all_cons, Bool.and_eq_true] at h
    obtain ⟨h1, h2⟩ := h
    by_cases hm : json.matchesField key = true
    · cases v with
      | str x => simpa [json.decodeFields, hm] using ih _ h2
      | null => simpa [json.decodeFields, hm] using ih _ h2
      | bool b => simp [Spec.memberFits, hm] at h1
      | number n => simp [Spec.memberFits, hm] at h1
      | arr l => simp [Spec.memberFits, hm] at h1
      | obj l => simp [Spec.memberFits, hm] at h1
    · simpa [json.decodeFields, hm] using ih _ h2

theorem decodeFields_of_not_fits (fields : List (String × json.Value)) (item : json.GemmaItem)
    (h : fields.all Spec.memberFits = false) :
    ∃ k, json.decodeFields fields item = .error (.unmarshalTypeError k) := by
  induction fields generalizing item with
  | nil => simp at h
  | cons kv rest ih =>
    obtain ⟨key, v⟩ := kv
    rw [List.all_cons, Bool.and_eq_false_iff] at h
    by_cases hm : json.matchesField key = true
    · cases v with
      | str x =>
        have h2 : rest.all Spec.memberFits = false := by
          rcases h with h | h
          · simp [Spec.memberFits, hm] at h
          · exact h
        simpa [json.decodeFields, hm] using ih _ h2
      | null =>
        have h2 : rest.all Spec.memberFits = false := by
          rcases h with h | h
          · simp [Spec.memberFits, hm] at h
          · exact h
        simpa [json.decodeFields, hm] using ih _ h2
      | bool b => exact ⟨json.kindName (.bool b), by simp [json.decodeFields, hm]⟩
      | number n => exact ⟨json.kindName (.number n), by simp [json.decodeFields, hm]⟩
      | arr l => exact ⟨json.kindName (.arr l), by simp [json.decodeFields, hm]⟩
      | obj l => exact ⟨json.kindName (.obj l), by simp [json.decodeFields, hm]⟩
    · have h2 : rest.all Spec.memberFits = false := by
        rcases h with h | h
        · simp [Spec.memberFits, hm] at h
        · exact h
      simpa [json.decodeFields, hm] using ih _ h2

theorem decodeItem_of_fits (v : json.Value) (h : Spec.elementFits v = true) :
    ∃ r, json.decodeItem v = .ok r := by
  cases v with
  | null => exact ⟨_, rfl⟩
  | obj fields => exact decodeFields_of_fits fields _ h
  | bool b => simp [Spec.elementFits] at h
  | number n => simp [Spec.elementFits] at h
  | str x => simp [Spec.elementFits] at h
  | arr l => simp [Spec.elementFits] at h

theorem decodeItem_of_not_fits (v : json.Value) (h : Spec.elementFits v = false) :
    ∃ k, json.decodeItem v = .error (.unmarshalTypeError k) := by
  cases v with
  | null => simp [Spec.elementFits] at h
  | obj fields => exact decodeFields_of_not_fits fields _ h
  | bool b => exact ⟨_, rfl⟩
  | number n => exact ⟨_, rfl⟩
  | str x => exact ⟨_, rfl⟩
  | arr l => exact ⟨_, rfl⟩

theorem decodeItems_of_fits (items : List json.Value)
    (h : items.all Spec.elementFits = true) : ∃ r, json.decodeItems items = .ok r := by
  induction items with
  | nil => exact ⟨[], rfl⟩
  | cons v rest ih =>
    rw [List.all_cons, Bool.and_eq_true] at h
    obtain ⟨r1, e1⟩ := decodeItem_of_fits v h.1
    obtain ⟨r2, e2⟩ := ih h.2
    exact ⟨r1 :: r2, by simp [json.decodeItems, e1, e2]⟩

theorem decodeItems_of_not_fits (items : List json.Value)
    (h : items.all Spec.elementFits = false) :
    ∃ k, json.decodeItems items = .error (.unmarshalTypeError k) := by
  induction items with
  | nil => simp at h
  | cons v rest ih =>
    rw [List.all_cons, Bool.and_eq_false_iff] at h
    cases hv : Spec.elementFits v with
    | false =>
      obtain ⟨k, e⟩ := decodeItem_of_not_fits v hv
      exact ⟨k, by simp [json.decodeItems, e]⟩
    | true =>
      have h2 : rest.all Spec.elementFits = false := by
        rcases h with h | h
        · rw [hv] at h; exact absurd h (by simp)
        · exact h
      obtain ⟨r1, e1⟩ := decodeItem_of_fits v hv
      obtain ⟨k, e2⟩ := ih h2
      exact ⟨k, by simp [json.decodeItems, e1, e2]⟩

theorem decodeTop_of_fits (v : json.Value) (h : Spec.bodyFits v = true) :
    ∃ r, json.decodeTop v = .ok r := by
  cases v with
  | null => exact ⟨_, rfl⟩
  | arr items => exact decodeItems_of_fits items h
  | bool b => simp [Spec.bodyFits] at h
  | number n => simp [Spec.bodyFits] at h
  | str x => simp [Spec.bodyFits] at h
  | obj l => simp [Spec.bodyFits] at h

theorem decodeTop_of_not_fits (v : json.Value) (h : Spec.bodyFits v = false) :
    ∃ k, json.decodeTop v = .error (.unmarshalTypeError k) := by
  cases v with
  | null => simp [Spec.bodyFits] at h
  | arr items => exact decodeItems_of_not_fits items h
  | bool b => exact ⟨_, rfl⟩
  | number n => exact ⟨_, rfl⟩
  | str x => exact ⟨_, rfl⟩
  | obj l => exact ⟨_, rfl⟩

theorem queryGemma_ok_of_unmarshal (w : World) (prompt body : String)
    (items : List json.GemmaItem)
    (hdo : w.Do (gemmaRequest prompt) = .response 200 body)
    (hu : json.Unmarshal body = .ok items) : ∃ text, (queryGemma w prompt).result = .ok text := by
  unfold queryGemma
  simp only [hdo, hu, ne_eq, not_true_eq_false, if_false]
  split
  · exact ⟨_, rfl⟩
  · split <;> exact ⟨_, rfl⟩

/-! ## Occurrences of the label and year in the prompt -/

theorem countOccurrences_cons (pat : List Char) (c : Char) (cs : List Char) :
    Spec.countOccurrences pat (c :: cs) =
      (if pat.isPrefixOf (c :: cs) then 1 else 0) + Spec.countOccurrences pat cs := rfl

theorem count_skip_noUpper (p : Char) (ps X Y : List Char) (hp : isUpper p = true)
    (hX : ∀ x ∈ X, isUpper x = false) :
    Spec.countOccurrences (p :: ps) (X ++ Y) = Spec.countOccurrences (p :: ps) Y := by
  induction X with
  | nil => rfl
  | cons x xs ih =>
    have hx : isUpper x = false := hX x (by simp)
    have hne : p ≠ x := by
      rintro rfl
      rw [hp] at hx
      exact absurd hx (by simp)
    have ih2 := ih (fun y hy => hX y (by simp [hy]))
    rw [List.cons_append, countOccurrences_cons, ih2]
    simp [List.isPrefixOf, hne]

theorem count_skip_noStart (K pat X Y1 : List Char) (hK : K <+: pat)
    (hX : noStartOf K X = true) :
    Spec.countOccurrences pat (X ++ (K ++ Y1)) = Spec.countOccurrences pat (K ++ Y1) := by
  induction X with
  | nil => rfl
  | cons x xs ih =>
    simp only [noStartOf, Bool.and_eq_true, Bool.not_eq_true'] at hX
    obtain ⟨h1, h2⟩ := hX
    have hn : pat.isPrefixOf (x :: xs ++ (K ++ Y1)) = false := by
      rw [← Bool.not_eq_true, List.isPrefixOf_iff_prefix]
      intro hpre
      have hk1 : K <+: x :: xs ++ (K ++ Y1) := hK.trans hpre
      have hk2 : (x :: xs ++ K) <+: x :: xs ++ (K ++ Y1) := by
        rw [← List.append_assoc]
        exact List.prefix_append _ _
      have hk3 : K <+: x :: xs ++ K :=
        List.prefix_of_prefix_length_le hk1 hk2 (by simp; omega)
      rw [← List.isPrefixOf_iff_prefix, h1] at hk3
      exact absurd hk3 (by simp)
    rw [List.cons_append, countOccurrences_cons, ← List.cons_append, hn, ih h2]
    simp

theorem count_at_start (pat Z : List Char) (p : Char) (ps : List Char) (hpat : pat = p :: ps) :
    Spec.countOccurrences pat (pat ++ Z) = 1 + Spec.countOccurrences pat (ps ++ Z) := by
  have h : pat.isPrefixOf (pat ++ Z) = true := by
    rw [List.isPrefixOf_iff_prefix]
    exact List.prefix_append _ _
  subst hpat
  rw [List.cons_append] at h ⊢
  rw [countOccurrences_cons, h, if_pos rfl]

/-- A text made of `A`, the pattern, `U`, `B`, the pattern, `U` and `C` holds the
pattern exactly twice when the pattern starts with an upper-case letter that
occurs nowhere else in the pattern, in `U` or in `C`, and no occurrence of the
first letters `K` of the pattern starts inside `A` or `B`. -/
theorem count_two (K pat U A B C : List Char) (p : Char) (ps : List Char)
    (hpat : pat = p :: ps) (hp : isUpper p = true) (hps : ∀ x ∈ ps, isUpper x = false)
    (hU : ∀ x ∈ U, isUpper x = false) (hC : ∀ x ∈ C, isUpper x = false)
    (hK : K <+: pat) (hA : noStartOf K A = true) (hB : noStartOf K B = true) :
    Spec.countOccurrences pat (A ++ (pat ++ (U ++ (B ++ (pat ++ (U ++ C)))))) = 2 := by
  obtain ⟨T, rfl⟩ := hK
  have hlast : Spec.countOccurrences (K ++ T) (ps ++ (U ++ C)) = 0 := by
    have h := count_skip_noUpper p ps (ps ++ (U ++ C)) [] hp (by
      intro x hx
      simp only [List.mem_append] at hx
      rcases hx with hx | hx | hx
      · exact hps x hx
      · exact hU x hx
      · exact hC x hx)
    rw [List.append_nil, ← hpat] at h
    rw [h]
    rfl
  have hmid : Spec.countOccurrences (K ++ T) (ps ++ (U ++ (B ++ ((K ++ T) ++ (U ++ C))))) = 1 := by
    have h := count_skip_noUpper p ps (ps ++ U) (B ++ ((K ++ T) ++ (U ++ C))) hp (by
      intro x hx
      simp only [List.mem_append] at hx
      rcases hx with hx | hx
      · exact hps x hx
      · exact hU x hx)
    rw [← hpat] at h
    rw [List.append_assoc] at h
    rw [h]
    have h2 := count_skip_noStart K (K ++ T) B (T ++ (U ++ C)) (List.prefix_append _ _) hB
    rw [← List.append_assoc K T] at h2
    rw [h2, count_at_start (K ++ T) (U ++ C) p ps hpat, hlast]
  have h1 := count_skip_noStart K (K ++ T) A (T ++ (U ++ (B ++ ((K ++ T) ++ (U ++ C)))))
    (List.prefix_append _ _) hA
  rw [← List.append_assoc K T] at h1
  rw [h1, count_at_start (K ++ T) _ p ps hpat, hmid]

theorem formatBits_noUpper (fuel u : Nat) (acc : List Char)
    (hacc : ∀ x ∈ acc, isUpper x = false) :
    ∀ x ∈ strconv.formatBits fuel u acc, isUpper x = false := by
  have hd : ∀ d, d < 10 → isUpper (Char.ofNat (48 + d)) = false := by
    intro d hd
    interval_cases d <;> decide
  induction fuel generalizing u acc with
  | zero => exact hacc
  | succ n ih =>
    simp only [strconv.formatBits]
    split
    · rename_i hu
      intro x hx
      rcases List.mem_cons.mp hx with rfl | hx
      · exact hd u hu
      · exact hacc x hx
    · apply ih
      intro x hx
      rcases List.mem_cons.mp hx with rfl | hx
      · exact hd _ (by omega)
      · exact hacc x hx

theorem toString_noUpper (n : Nat) : ∀ x ∈ (toString n).data, isUpper x = false := by
  have e : (toString n).data = strconv.formatBits (n + 1) n [] := by
    rw [formatBits_eq_toDigitsCore]
    rfl
  rw [e]
  exact formatBits_noUpper _ _ _ (by simp)

set_option maxRecDepth 100000 in
theorem month_facts (m : Nat) (h1 : 1 ≤ m) (h2 : m ≤ 12) :
    ∃ p ps, (Spec.monthName m).data = p :: ps ∧ isUpper p = true ∧
      (∀ x ∈ ps, isUpper x = false) ∧
      noStartOf ((Spec.monthName m).data.take 3) promptPart1.data = true ∧
      noStartOf ((Spec.monthName m).data.take 3) promptPart2.data = true := by
  interval_cases m <;>
    exact ⟨_, _, rfl, by decide, by decide, by decide, by decide⟩

set_option maxRecDepth 100000 in
theorem promptPart2_ends_with_marker :
    ∃ P, promptPart2.data = P ++ "No significant historical events found for ".data :=
  ⟨promptPart2.data.take
    (promptPart2.data.length - "No significant historical events found for ".data.length),
    by decide⟩

/-- On an accepted date the text holding the label and the year, and the label
alone, each occur exactly twice in the prompt, which also holds the sentence the
model is told to answer when it finds nothing. -/
theorem prompt_occurrences (s : String) (h1 : 1 ≤ Spec.monthOf s) (h2 : Spec.monthOf s ≤ 12) :
    Spec.occurrences
      (promptPart1 ++ Spec.labelAndYear s ++ promptPart2 ++ Spec.labelAndYear s ++ promptPart3)
      (Spec.labelAndYear s) = 2 ∧
    Spec.occurrences
      (promptPart1 ++ Spec.labelAndYear s ++ promptPart2 ++ Spec.labelAndYear s ++ promptPart3)
      (Spec.label s) = 2 := by
  obtain ⟨p, ps, hM, hp, hps, hA, hB⟩ := month_facts (Spec.monthOf s) h1 h2
  have hday := toString_noUpper (Spec.dayOf s)
  have hyear := toString_noUpper (Spec.yearOf s)
  have hC : ∀ x ∈ promptPart3.data, isUpper x = false := by decide
  have hsp : isUpper ' ' = false := by decide
  have hKM : List.take 3 (Spec.monthName (Spec.monthOf s)).data <+:
      (Spec.monthName (Spec.monthOf s)).data := List.take_prefix _ _
  constructor
  · have := count_two (List.take 3 (Spec.monthName (Spec.monthOf s)).data)
      (Spec.labelAndYear s).data [] promptPart1.data promptPart2.data promptPart3.data p
      (ps ++ ' ' :: (toString (Spec.dayOf s)).data ++ ' ' :: (toString (Spec.yearOf s)).data)
      (by simp [Spec.labelAndYear, Spec.label, hM])
      hp
      (by
        intro x hx
        simp only [List.mem_append, List.mem_cons] at hx
        rcases hx with (hx | rfl | hx) | rfl | hx
        · exact hps x hx
        · exact hsp
        · exact hday x hx
        · exact hsp
        · exact hyear x hx)
      (by simp) hC
      (hKM.trans (by simp [Spec.labelAndYear, Spec.label, List.append_assoc]))
      hA hB
    simpa [Spec.occurrences, List.append_assoc] using this
  · have := count_two (List.take 3 (Spec.monthName (Spec.monthOf s)).data)
      (Spec.label s).data (' ' :: (toString (Spec.yearOf s)).data)
      promptPart1.data promptPart2.data promptPart3.data p
      (ps ++ ' ' :: (toString (Spec.dayOf s)).data)
      (by simp [Spec.label, hM])
      hp
      (by
        intro x hx
        simp only [List.mem_append, List.mem_cons] at hx
        rcases hx with hx | rfl | hx
        · exact hps x hx
        · exact hsp
        · exact hday x hx)
      (by
        intro x hx
        rcases List.mem_cons.mp hx with rfl | hx
        · exact hsp
        · exact hyear x hx)
      hC
      (hKM.trans (by simp [Spec.label, List.append_assoc]))
      hA hB
    simpa [Spec.occurrences, Spec.labelAndYear, List.append_assoc] using this

/-! ## The claims -/

/-- C1: when the `date` argument is absent, is not a string, or is a string that
does not have the shape `YYYY-MM-DD`, the handler sends no request (the model
client is not called) and fails: with `date must be a string` when there is no
string, with `invalid date format, must be YYYY-MM-DD` when the string has not
the shape. -/
theorem invalid_date_rejected_without_call (w : World) (req : mcp.CallToolRequest)
    (h : ∀ s, req.Params.Arguments.lookup "date" = some (.str s) → Spec.hasShape s = false) :
    (historicalEventsHandler w req).calls = [] ∧
    ((∀ s, req.Params.Arguments.lookup "date" ≠ some (.str s)) →
      (historicalEventsHandler w req).result = .error "date must be a string") ∧
    (∀ s, req.Params.Arguments.lookup "date" = some (.str s) →
      (historicalEventsHandler w req).result =
        .error "invalid date format, must be YYYY-MM-DD") := by
  have key : ∀ s, req.Params.Arguments.lookup "date" = some (.str s) →
      historicalEventsHandler w req =
        { calls := [], result := .error "invalid date format, must be YYYY-MM-DD" } := by
    intro s hs
    have hc : Spec.isCalendarDate s = false := by
      simp [Spec.isCalendarDate, h s hs]
    obtain ⟨e, he⟩ := parse_error_of_not_calendarDate s hc
    unfold historicalEventsHandler
    simp only [hs, he]
  have other : (∀ s, req.Params.Arguments.lookup "date" ≠ some (.str s)) →
      historicalEventsHandler w req = { calls := [], result := .error "date must be a string" } := by
    intro hn
    unfold historicalEventsHandler
    split
    · rename_i d hd
      exact absurd hd (hn d)
    · rfl
  refine ⟨?_, ?_, ?_⟩
  · by_cases hex : ∃ s, req.Params.Arguments.lookup "date" = some (.str s)
    · obtain ⟨s, hs⟩ := hex
      rw [key s hs]
    · rw [other (fun s hs => hex ⟨s, hs⟩)]
  · intro hn
    rw [other hn]
  · intro s hs
    rw [key s hs]

theorem invalid_date_rejected_without_call_witness :
    (historicalEventsHandler (worldReplying 200 "[]") (requestWith (.str "11/09/2001"))).calls = [] ∧
    (historicalEventsHandler (worldReplying 200 "[]") (requestWith (.str "11/09/2001"))).result =
      .error "invalid date format, must be YYYY-MM-DD" ∧
    historicalEventsHandler (worldReplying 200 "[]") (requestWith (.number "20010911")) =
      { calls := [], result := .error "date must be a string" } ∧
    historicalEventsHandler (worldReplying 200 "[]") requestWithout =
      { calls := [], result := .error "date must be a string" } :=
  have h := invalid_date_rejected_without_call (worldReplying 200 "[]")
    (requestWith (.str "11/09/2001"))
    (fun s hs => by
      have e : s = "11/09/2001" := by
        simp [requestWith, List.lookup] at hs
        exact hs.symm
      subst e
      decide)
  ⟨h.1, h.2.2 "11/09/2001" rfl, rfl, rfl⟩

/-- C10: the handler accepts a date string, that is builds the prompt and sends
it to the model, exactly when the string has the shape `YYYY-MM-DD` with a month
in `01..12` and a day between `01` and the number of days of that month in that
year (Gregorian leap years); every other string is rejected with
`invalid date format, must be YYYY-MM-DD` and nothing is sent. -/
theorem accepts_exactly_calendar_dates (w : World) (req : mcp.CallToolRequest) (s : String)
    (h : req.Params.Arguments.lookup "date" = some (.str s)) :
    ((historicalEventsHandler w req).calls =
        [gemmaRequest (buildPrompt (Spec.label s) (Spec.yearOf s))] ↔
      Spec.isCalendarDate s = true) ∧
    (Spec.isCalendarDate s = false →
      historicalEventsHandler w req =
        { calls := [], result := .error "invalid date format, must be YYYY-MM-DD" }) := by
  have rej : Spec.isCalendarDate s = false →
      historicalEventsHandler w req =
        { calls := [], result := .error "invalid date format, must be YYYY-MM-DD" } := by
    intro hc
    obtain ⟨e, he⟩ := parse_error_of_not_calendarDate s hc
    unfold historicalEventsHandler
    simp only [h, he]
  refine ⟨⟨?_, ?_⟩, rej⟩
  · intro hcalls
    cases hc : Spec.isCalendarDate s with
    | true => rfl
    | false =>
      rw [rej hc] at hcalls
      exact absurd hcalls (by simp)
  · intro hc
    have hp := parse_of_calendarDate s hc
    obtain ⟨e1, e2⟩ := parse_label_year s _ hp
    rw [handler_calls_of_parse w req s _ h hp, e1, e2]

set_option maxRecDepth 100000 in
theorem accepts_exactly_calendar_dates_witness :
    historicalEventsHandler (worldReplying 200 "[]") (requestWith (.str "2023-02-30")) =
        { calls := [], result := .error "invalid date format, must be YYYY-MM-DD" } ∧
    historicalEventsHandler (worldReplying 200 "[]") (requestWith (.str "2001-13-01")) =
        { calls := [], result := .error "invalid date format, must be YYYY-MM-DD" } ∧
    historicalEventsHandler (worldReplying 200 "[]") (requestWith (.str "2001-04-00")) =
        { calls := [], result := .error "invalid date format, must be YYYY-MM-DD" } ∧
    (historicalEventsHandler (worldReplying 200 "[]") (requestWith (.str "2024-02-29"))).calls =
        [gemmaRequest (buildPrompt "February 29" 2024)] :=
  ⟨(accepts_exactly_calendar_dates (worldReplying 200 "[]") (requestWith (.str "2023-02-30"))
      "2023-02-30" rfl).2 (by decide),
   (accepts_exactly_calendar_dates (worldReplying 200 "[]") (requestWith (.str "2001-13-01"))
      "2001-13-01" rfl).2 (by decide),
   (accepts_exactly_calendar_dates (worldReplying 200 "[]") (requestWith (.str "2001-04-00"))
      "2001-04-00" rfl).2 (by decide),
   ((accepts_exactly_calendar_dates (worldReplying 200 "[]") (requestWith (.str "2024-02-29"))
      "2024-02-29" rfl).1.2 (by decide)).trans (by decide)⟩

/-- C5: for a date string that the handler accepts, the year it derives is the
value of the four digits `YYYY` and the label it derives is the English name of
month `MM`, one space, and the day `DD` in decimal without leading zero; these are
the label and year of the prompt it sends. -/
theorem derived_year_and_label (w : World) (req : mcp.CallToolRequest) (s : String)
    (t : time.Time) (h : req.Params.Arguments.lookup "date" = some (.str s))
    (hp : time.Parse s = .ok t) :
    Spec.hasShape s = true ∧
    t.Year = (Spec.digitsValue (s.data.take 4) : Int) ∧
    t.Format_January_2 =
      Spec.monthName (Spec.digitsValue ((s.data.drop 5).take 2)) ++ " " ++
        toString (Spec.digitsValue ((s.data.drop 8).take 2)) ∧
    (historicalEventsHandler w req).calls =
      [gemmaRequest (buildPrompt t.Format_January_2 t.Year)] := by
  obtain ⟨e1, e2⟩ := parse_label_year s t hp
  have hc := (parse_ok_calendarDate s t hp).1
  unfold Spec.isCalendarDate at hc
  rw [Bool.and_eq_true] at hc
  exact ⟨hc.1, e2, e1, handler_calls_of_parse w req s t h hp⟩

theorem derived_year_and_label_witness :
    (time.Parse "2001-09-11" = .ok { year := 2001, month := 9, day := 11 } ∧
      time.Time.Year { year := 2001, month := 9, day := 11 } = 2001 ∧
      time.Time.Format_January_2 { year := 2001, month := 9, day := 11 } = "September 11") ∧
    (time.Parse "1999-01-02" = .ok { year := 1999, month := 1, day := 2 } ∧
      time.Time.Year { year := 1999, month := 1, day := 2 } = 1999 ∧
      time.Time.Format_January_2 { year := 1999, month := 1, day := 2 } = "January 2") :=
  have h1 := derived_year_and_label (worldReplying 200 "[]") (requestWith (.str "2001-09-11"))
    "2001-09-11" { year := 2001, month := 9, day := 11 } rfl (by decide)
  have h2 := derived_year_and_label (worldReplying 200 "[]") (requestWith (.str "1999-01-02"))
    "1999-01-02" { year := 1999, month := 1, day := 2 } rfl (by decide)
  ⟨⟨by decide, h1.2.1.trans (by decide), h1.2.2.1.trans (by decide)⟩,
   ⟨by decide, h2.2.1.trans (by decide), h2.2.2.1.trans (by decide)⟩⟩

/-- C2: on a date the handler accepts, when the model client returns a text that
contains `No significant historical events` anywhere (whatever surrounds it, white
space included), the result of the handler is exactly the text
`No historical events found for {label} {year}`, in which the returned text plays
no part. -/
theorem fallback_when_answer_has_marker (w : World) (req : mcp.CallToolRequest) (s : String)
    (t : time.Time) (answer : String)
    (h : req.Params.Arguments.lookup "date" = some (.str s)) (hp : time.Parse s = .ok t)
    (hq : (queryGemma w (buildPrompt t.Format_January_2 t.Year)).result = .ok answer)
    (hc : strings.Contains answer "No significant historical events" = true) :
    (historicalEventsHandler w req).result =
      .ok { Content :=
              [{ type := "text"
                 Text := "No historical events found for " ++ Spec.label s ++ " " ++
                   toString (Spec.yearOf s) }]
            IsError := false } := by
  obtain ⟨e1, e2⟩ := parse_label_year s t hp
  have hc2 : strings.Contains (strings.TrimSpace answer) "No significant historical events"
      = true := by
    rw [Contains_iff] at hc ⊢
    exact infix_trimSpaceList _ _ (by decide) (by decide) (by decide) hc
  rw [handler_result_of_answer w req s t answer h hp hq, if_pos hc2, e1, e2, Itoa_natCast]
  rfl

set_option maxRecDepth 100000 in
theorem fallback_when_answer_has_marker_witness :
    (historicalEventsHandler
      (worldReplying 200
        "[\x7b\"generated_text\": \"\\n  I am sorry. No significant historical events found for July 4 1776.  \"\x7d]")
      (requestWith (.str "1776-07-04"))).result =
      .ok { Content := [{ type := "text", Text := "No historical events found for July 4 1776" }]
            IsError := false } :=
  (fallback_when_answer_has_marker
    (worldReplying 200
      "[\x7b\"generated_text\": \"\\n  I am sorry. No significant historical events found for July 4 1776.  \"\x7d]")
    (requestWith (.str "1776-07-04")) "1776-07-04" { year := 1776, month := 7, day := 4 }
    "\n  I am sorry. No significant historical events found for July 4 1776.  "
    rfl (by decide) (by decide) (by decide)).trans (by decide)

/-- C3: on a date the handler accepts, when the model client returns a text whose
trimmed form does not contain `No significant historical events`, the result of the
handler is exactly `On {label} {year}:`, a newline, and the trimmed text. -/
theorem answer_passed_through_trimmed (w : World) (req : mcp.CallToolRequest) (s : String)
    (t : time.Time) (answer : String)
    (h : req.Params.Arguments.lookup "date" = some (.str s)) (hp : time.Parse s = .ok t)
    (hq : (queryGemma w (buildPrompt t.Format_January_2 t.Year)).result = .ok answer)
    (hc : strings.Contains (strings.TrimSpace answer) "No significant historical events"
      = false) :
    (historicalEventsHandler w req).result =
      .ok { Content :=
              [{ type := "text"
                 Text := "On " ++ Spec.label s ++ " " ++ toString (Spec.yearOf s) ++ ":\n" ++
                   strings.TrimSpace answer }]
            IsError := false } := by
  obtain ⟨e1, e2⟩ := parse_label_year s t hp
  rw [handler_result_of_answer w req s t answer h hp hq, hc, e1, e2, Itoa_natCast]
  simp [mcp.NewToolResultText]

set_option maxRecDepth 100000 in
theorem answer_passed_through_trimmed_witness :
    (historicalEventsHandler
      (worldReplying 200
        "[\x7b\"generated_text\": \"1. [1973] Example.\\n2. [1990] Example2.\"\x7d]")
      (requestWith (.str "2001-09-11"))).result =
      .ok { Content :=
              [{ type := "text"
                 Text := "On September 11 2001:\n1. [1973] Example.\n2. [1990] Example2." }]
            IsError := false } ∧
    (historicalEventsHandler
      (worldReplying 200
        "[\x7b\"generated_text\": \" 1. [1776] Example event\\n2. [1776] Another event\\n\"\x7d]")
      (requestWith (.str "1776-07-04"))).result =
      .ok { Content :=
              [{ type := "text"
                 Text := "On July 4 1776:\n1. [1776] Example event\n2. [1776] Another event" }]
            IsError := false } :=
  ⟨(answer_passed_through_trimmed
      (worldReplying 200
        "[\x7b\"generated_text\": \"1. [1973] Example.\\n2. [1990] Example2.\"\x7d]")
      (requestWith (.str "2001-09-11")) "2001-09-11" { year := 2001, month := 9, day := 11 }
      "1. [1973] Example.\n2. [1990] Example2."
      rfl (by decide) (by decide) (by decide)).trans (by decide),
   (answer_passed_through_trimmed
      (worldReplying 200
        "[\x7b\"generated_text\": \" 1. [1776] Example event\\n2. [1776] Another event\\n\"\x7d]")
      (requestWith (.str "1776-07-04")) "1776-07-04" { year := 1776, month := 7, day := 4 }
      " 1. [1776] Example event\n2. [1776] Another event\n"
      rfl (by decide) (by decide) (by decide)).trans (by decide)⟩

/-- C6: for every response whose status is not 200, whatever its body,
`queryGemma` fails with `API error {status}: {body}` and returns no text; a handler
that had accepted its date then fails with `failed to get events: ` followed by
that message and builds no result. -/
theorem non_200_is_api_error (w : World) (prompt : String) (status : Int) (body : String)
    (hdo : w.Do (gemmaRequest prompt) = .response status body) (hs : status ≠ 200) :
    (queryGemma w prompt).result =
      .error ("API error " ++ strconv.Itoa status ++ ": " ++ body) ∧
    ∀ (req : mcp.CallToolRequest) (s : String) (t : time.Time),
      req.Params.Arguments.lookup "date" = some (.str s) → time.Parse s = .ok t →
      buildPrompt t.Format_January_2 t.Year = prompt →
      (historicalEventsHandler w req).result =
        .error ("failed to get events: " ++
          ("API error " ++ strconv.Itoa status ++ ": " ++ body)) := by
  have hq : (queryGemma w prompt).result =
      .error ("API error " ++ strconv.Itoa status ++ ": " ++ body) := by
    unfold queryGemma
    simp only [hdo, hs, ne_eq, not_false_eq_true, if_true]
  refine ⟨hq, ?_⟩
  intro req s t h hp hb
  subst hb
  exact handler_result_of_failure w req s t _ h hp hq

set_option maxRecDepth 100000 in
theorem non_200_is_api_error_witness :
    (queryGemma (worldReplying 503 "[\x7b\"generated_text\": \"1. [1969] Moon landing.\"\x7d]")
      "prompt").result =
      .error "API error 503: [\x7b\"generated_text\": \"1. [1969] Moon landing.\"\x7d]" ∧
    (historicalEventsHandler
      (worldReplying 503 "[\x7b\"generated_text\": \"1. [1969] Moon landing.\"\x7d]")
      (requestWith (.str "1969-07-20"))).result =
      .error
        "failed to get events: API error 503: [\x7b\"generated_text\": \"1. [1969] Moon landing.\"\x7d]" :=
  ⟨(non_200_is_api_error
      (worldReplying 503 "[\x7b\"generated_text\": \"1. [1969] Moon landing.\"\x7d]")
      "prompt" 503 "[\x7b\"generated_text\": \"1. [1969] Moon landing.\"\x7d]" rfl (by decide)).1.trans
      (by decide),
   ((non_200_is_api_error
      (worldReplying 503 "[\x7b\"generated_text\": \"1. [1969] Moon landing.\"\x7d]")
      (buildPrompt "July 20" 1969) 503 "[\x7b\"generated_text\": \"1. [1969] Moon landing.\"\x7d]"
      rfl (by decide)).2
      (requestWith (.str "1969-07-20")) "1969-07-20" { year := 1969, month := 7, day := 20 }
      rfl (by decide) (by decide)).trans (by decide)⟩

/-- C7: when the list decoded from a 200 response is empty, or the generated text
of its first element is empty, `queryGemma` succeeds with the text
`No historical events found for this date`; a handler that had accepted its date
then does not take its fallback branch: it returns `On {label} {year}:`, a newline,
and `No historical events found for this date`. -/
theorem empty_reply_gives_literal (w : World) (prompt : String) (body : String)
    (items : List json.GemmaItem)
    (hdo : w.Do (gemmaRequest prompt) = .response 200 body)
    (hu : json.Unmarshal body = .ok items)
    (he : items = [] ∨ ∃ first rest, items = first :: rest ∧ first.GeneratedText = "") :
    (queryGemma w prompt).result = .ok "No historical events found for this date" ∧
    ∀ (req : mcp.CallToolRequest) (s : String) (t : time.Time),
      req.Params.Arguments.lookup "date" = some (.str s) → time.Parse s = .ok t →
      buildPrompt t.Format_January_2 t.Year = prompt →
      (historicalEventsHandler w req).result =
        .ok { Content :=
                [{ type := "text"
                   Text := "On " ++ Spec.label s ++ " " ++ toString (Spec.yearOf s) ++ ":\n" ++
                     "No historical events found for this date" }]
              IsError := false } := by
  have hq : (queryGemma w prompt).result = .ok "No historical events found for this date" := by
    unfold queryGemma
    simp only [hdo, hu, ne_eq, not_true_eq_false, if_false]
    rcases he with rfl | ⟨first, rest, rfl, hf⟩
    · rfl
    · simp only [hf, if_true]
  refine ⟨hq, ?_⟩
  intro req s t h hp hb
  subst hb
  obtain ⟨e1, e2⟩ := parse_label_year s t hp
  rw [handler_result_of_answer w req s t _ h hp hq, e1, e2, Itoa_natCast]
  have e3 : strings.TrimSpace "No historical events found for this date" =
      "No historical events found for this date" := by decide
  have e4 : strings.Contains "No historical events found for this date"
      "No significant historical events" = false := by decide
  rw [e3, e4]
  simp [mcp.NewToolResultText]

set_option maxRecDepth 100000 in
theorem empty_reply_gives_literal_witness :
    (queryGemma (worldReplying 200 "[]") (buildPrompt "March 4" 1789)).result =
      .ok "No historical events found for this date" ∧
    (historicalEventsHandler (worldReplying 200 "[]") (requestWith (.str "1789-03-04"))).result =
      .ok { Content :=
              [{ type := "text"
                 Text := "On March 4 1789:\nNo historical events found for this date" }]
            IsError := false } ∧
    (historicalEventsHandler (worldReplying 200 "[\x7b\"generated_text\": \"\"\x7d, \x7b\"generated_text\": \"x\"\x7d]")
      (requestWith (.str "1789-03-04"))).result =
      .ok { Content :=
              [{ type := "text"
                 Text := "On March 4 1789:\nNo historical events found for this date" }]
            IsError := false } :=
  have h1 := empty_reply_gives_literal (worldReplying 200 "[]") (buildPrompt "March 4" 1789)
    "[]" [] rfl (by decide) (Or.inl rfl)
  have h2 := empty_reply_gives_literal
    (worldReplying 200 "[\x7b\"generated_text\": \"\"\x7d, \x7b\"generated_text\": \"x\"\x7d]")
    (buildPrompt "March 4" 1789)
    "[\x7b\"generated_text\": \"\"\x7d, \x7b\"generated_text\": \"x\"\x7d]"
    [{ GeneratedText := "" }, { GeneratedText := "x" }] rfl (by decide)
    (Or.inr ⟨_, _, rfl, rfl⟩)
  ⟨h1.1,
   (h1.2 (requestWith (.str "1789-03-04")) "1789-03-04" { year := 1789, month := 3, day := 4 }
      rfl (by decide) (by decide)).trans (by decide),
   (h2.2 (requestWith (.str "1789-03-04")) "1789-03-04" { year := 1789, month := 3, day := 4 }
      rfl (by decide) (by decide)).trans (by decide)⟩

/-- C8: for a 200 response whose body decodes to a list that starts with an
element of non-empty generated text `g`, `queryGemma` returns exactly `g`,
untrimmed, whatever the later elements of the list are. -/
theorem first_candidate_verbatim (w : World) (prompt : String) (body : String)
    (first : json.GemmaItem) (rest : List json.GemmaItem)
    (hdo : w.Do (gemmaRequest prompt) = .response 200 body)
    (hu : json.Unmarshal body = .ok (first :: rest))
    (hne : first.GeneratedText ≠ "") :
    queryGemma w prompt = { calls := [gemmaRequest prompt], result := .ok first.GeneratedText } := by
  unfold queryGemma
  simp only [hdo, hu, ne_eq, not_true_eq_false, if_false, hne]

set_option maxRecDepth 100000 in
theorem first_candidate_verbatim_witness :
    (queryGemma
      (worldReplying 200 "[\x7b\"generated_text\": \"  1. [1815] Waterloo.\\n\"\x7d, \x7b\"generated_text\": \"other\"\x7d, null]")
      "prompt").result = .ok "  1. [1815] Waterloo.\n" :=
  congrArg Outcome.result
    (first_candidate_verbatim
      (worldReplying 200 "[\x7b\"generated_text\": \"  1. [1815] Waterloo.\\n\"\x7d, \x7b\"generated_text\": \"other\"\x7d, null]")
      "prompt"
      "[\x7b\"generated_text\": \"  1. [1815] Waterloo.\\n\"\x7d, \x7b\"generated_text\": \"other\"\x7d, null]"
      { GeneratedText := "  1. [1815] Waterloo.\n" }
      [{ GeneratedText := "other" }, { GeneratedText := "" }] rfl (by decide) (by decide))

/-- C9, as the code has it: for a 200 response, `queryGemma` fails with
`failed to parse response: ` followed by the decoder's message, and returns no
text, when the body does not pass the syntax check of the decoder (it is not valid
JSON, or is nested deeper than `maxNestingDepth`), or is a value other than `null`
or a list, or is a list with an element other than `null` or an object, or with an
object whose `generated_text` member (key compared without regard to ASCII case)
holds something other than a string or `null`; for a body that passes the syntax
check and has none of these defects it returns a text. -/
theorem decode_failure_cases (w : World) (prompt body : String)
    (hdo : w.Do (gemmaRequest prompt) = .response 200 body) :
    (json.parse body = none →
      json.Unmarshal body = .error .syntaxError ∧
      (queryGemma w prompt).result =
        .error ("failed to parse response: " ++ w.decodeErrorText body)) ∧
    (∀ v, json.parse body = some v → Spec.bodyFits v = false →
      (∃ kind, json.Unmarshal body = .error (.unmarshalTypeError kind)) ∧
      (queryGemma w prompt).result =
        .error ("failed to parse response: " ++ w.decodeErrorText body)) ∧
    (∀ v, json.parse body = some v → Spec.bodyFits v = true →
      ∃ text, (queryGemma w prompt).result = .ok text) := by
  have fail : ∀ e, json.Unmarshal body = .error e →
      (queryGemma w prompt).result =
        .error ("failed to parse response: " ++ w.decodeErrorText body) := by
    intro e hu
    unfold queryGemma
    simp only [hdo, hu, ne_eq, not_true_eq_false, if_false]
  refine ⟨?_, ?_, ?_⟩
  · intro hp
    have hu : json.Unmarshal body = .error .syntaxError := by
      simp [json.Unmarshal, hp]
    exact ⟨hu, fail _ hu⟩
  · intro v hp hf
    obtain ⟨k, hk⟩ := decodeTop_of_not_fits v hf
    have hu : json.Unmarshal body = .error (.unmarshalTypeError k) := by
      simp [json.Unmarshal, hp, hk]
    exact ⟨⟨k, hu⟩, fail _ hu⟩
  · intro v hp hf
    obtain ⟨r, hr⟩ := decodeTop_of_fits v hf
    have hu : json.Unmarshal body = .ok r := by
      simp [json.Unmarshal, hp, hr]
    exact queryGemma_ok_of_unmarshal w prompt body r hdo hu

set_option maxRecDepth 100000 in
theorem decode_failure_cases_witness :
    (queryGemma (worldReplying 200 "") "prompt").result =
      .error "failed to parse response: unexpected end of JSON input" ∧
    (queryGemma (worldReplying 200 "[\x7b\"generated_text\": \"1. [1969] Moon") "prompt").result =
      .error "failed to parse response: unexpected end of JSON input" ∧
    json.Unmarshal "<html>Service Unavailable</html>" = .error .syntaxError ∧
    json.Unmarshal "\x7b\"error\": \"Model is loading\"\x7d" =
      .error (.unmarshalTypeError "object") ∧
    json.Unmarshal "[\x7b\"generated_text\": 42\x7d]" = .error (.unmarshalTypeError "number") ∧
    json.Unmarshal "[\"1. [1969] Moon landing.\"]" = .error (.unmarshalTypeError "string") :=
  ⟨((decode_failure_cases (worldReplying 200 "") "prompt" "" rfl).1
      (Option.isNone_iff_eq_none.mp (by decide))).2.trans (by decide),
   ((decode_failure_cases (worldReplying 200 "[\x7b\"generated_text\": \"1. [1969] Moon")
      "prompt" "[\x7b\"generated_text\": \"1. [1969] Moon" rfl).1
      (Option.isNone_iff_eq_none.mp (by decide))).2.trans (by decide),
   by decide, by decide, by decide, by decide⟩

/-- C4: on a date the handler accepts, the prompt passed to the model client is
the template with the derived label and year written into it at two places, once
in the instruction sentence and once in the sentence for the negative result; the
text `{label} {year}` occurs in the prompt exactly twice (and so does the label),
and the prompt contains `No significant historical events found for {label} {year}.` -/
theorem prompt_has_label_and_year_twice (w : World) (req : mcp.CallToolRequest) (s : String)
    (t : time.Time) (h : req.Params.Arguments.lookup "date" = some (.str s))
    (hp : time.Parse s = .ok t) :
    ∃ prompt, (historicalEventsHandler w req).calls = [gemmaRequest prompt] ∧
      prompt = promptPart1 ++ Spec.labelAndYear s ++ promptPart2 ++ Spec.labelAndYear s ++
        promptPart3 ∧
      Spec.occurrences prompt (Spec.labelAndYear s) = 2 ∧
      Spec.occurrences prompt (Spec.label s) = 2 ∧
      strings.Contains prompt
        ("No significant historical events found for " ++ Spec.labelAndYear s ++ ".") = true := by
  obtain ⟨e1, e2⟩ := parse_label_year s t hp
  have hc := (parse_ok_calendarDate s t hp).1
  unfold Spec.isCalendarDate at hc
  rw [Bool.and_eq_true, decide_eq_true_eq] at hc
  obtain ⟨_, r1, r2, _, _⟩ := hc
  obtain ⟨o1, o2⟩ := prompt_occurrences s r1 r2
  have e : buildPrompt t.Format_January_2 t.Year =
      promptPart1 ++ Spec.labelAndYear s ++ promptPart2 ++ Spec.labelAndYear s ++
        promptPart3 := by
    rw [e1, e2]
    unfold buildPrompt
    rw [Itoa_natCast]
    apply String.ext
    simp [Spec.labelAndYear, List.append_assoc]
  refine ⟨_, handler_calls_of_parse w req s t h hp, e, ?_, ?_, ?_⟩
  · rw [e]; exact o1
  · rw [e]; exact o2
  · rw [Contains_iff, e]
    obtain ⟨P, hP⟩ := promptPart2_ends_with_marker
    refine ⟨promptPart1.data ++ (Spec.labelAndYear s).data ++ P, ['"'], ?_⟩
    have e3 : promptPart3.data = '.' :: ['"'] := by decide
    simp only [String.data_append, List.append_assoc, e3, hP]
    simp

set_option maxRecDepth 100000 in
theorem prompt_has_label_and_year_twice_witness :
    (historicalEventsHandler (worldReplying 200 "[]") (requestWith (.str "2001-09-11"))).calls =
      [gemmaRequest
        "Provide exactly two significant historical events that happened on September 11 2001.\nThe events must have occurred on this exact date (same month and day).\nFormat your response exactly as:\n1. [Year] Event description\n2. [Year] Event description\n\nIf no events match this exact date, say \"No significant historical events found for September 11 2001.\""] ∧
    Spec.occurrences
      "Provide exactly two significant historical events that happened on September 11 2001.\nThe events must have occurred on this exact date (same month and day).\nFormat your response exactly as:\n1. [Year] Event description\n2. [Year] Event description\n\nIf no events match this exact date, say \"No significant historical events found for September 11 2001.\""
      "September 11 2001" = 2 :=
  match prompt_has_label_and_year_twice (worldReplying 200 "[]")
      (requestWith (.str "2001-09-11")) "2001-09-11" { year := 2001, month := 9, day := 11 }
      rfl (by decide) with
  | ⟨_, hcalls, hprompt, hocc, _, _⟩ =>
    ⟨hcalls.trans (by rw [hprompt]; decide), by
      rw [hprompt] at hocc
      exact (show _ = _ by decide : Spec.occurrences _ _ = Spec.occurrences _ _).trans hocc⟩

/-- C9 as stated fails: the bodies `null`, `[null]`, `[{}]` and
`[{"generated_text": null}]` of a 200 response are not lists of objects that each
expose a `generated_text` string, and `queryGemma` does not fail on them: it
returns the text `No historical events found for this date`. -/
theorem decode_failure_counterexample :
    (Spec.matchesExpectedStructure "null" = false ∧
      (queryGemma (worldReplying 200 "null") "prompt").result =
        .ok "No historical events found for this date") ∧
    (Spec.matchesExpectedStructure "[null]" = false ∧
      (queryGemma (worldReplying 200 "[null]") "prompt").result =
        .ok "No historical events found for this date") ∧
    (Spec.matchesExpectedStructure "[\x7b\x7d]" = false ∧
      (queryGemma (worldReplying 200 "[\x7b\x7d]") "prompt").result =
        .ok "No historical events found for this date") ∧
    (Spec.matchesExpectedStructure "[\x7b\"generated_text\": null\x7d]" = false ∧
      (queryGemma (worldReplying 200 "[\x7b\"generated_text\": null\x7d]") "prompt").result =
        .ok "No historical events found for this date") := by
  decide

end HistoricalEvents
